import Mathlib

/-!
Verification development for the jvsfunc repository (deblend.py, mask.py,
deinterlace.py, util.py/helper.py, find.py).

Video clips are modelled as a length together with a total frame function
(VapourSynth serves internal frame requests with the index clamped into
range, which the total function with an explicit clamp reproduces).
Python-level indexing of a VideoNode (clip[i]) is partial: it supports
negative indices and raises IndexError out of range, modelled with Option.
Pixel samples are modelled as exact rationals (VapourSynth expression
evaluation is carried out in floating point; no integer rounding step
appears in any property proved here).
-/

namespace Jvs

/-- A video clip: a frame count and a total frame function.  Only indices
below the length are meaningful; operations defined on clips take their
index arithmetic directly from the corresponding VapourSynth filters. -/
structure Clip (α : Type) where
  len : Nat
  frame : Nat → α

/-- An internal VapourSynth frame request: the index is clamped into range. -/
def Clip.request (c : Clip α) (n : Nat) : α :=
  c.frame (min n (c.len - 1))

/-- Python clip splicing a + b. -/
def splice (a b : Clip α) : Clip α :=
  ⟨a.len + b.len, fun n => if n < a.len then a.frame n else b.frame (n - a.len)⟩

/-- Python clip[0]: the first frame as a one-frame clip (empty input gives an
empty clip; Python would raise there, no call site reaches it). -/
def pyFirst (c : Clip α) : Clip α :=
  ⟨min 1 c.len, fun _ => c.frame 0⟩

/-- Python clip[k:]. -/
def dropFirst (k : Nat) (c : Clip α) : Clip α :=
  ⟨c.len - k, fun n => c.frame (n + k)⟩

/-- Python clip[:-1]. -/
def dropLastOne (c : Clip α) : Clip α :=
  ⟨c.len - 1, c.frame⟩

/-- Python clip[-1]: the last frame as a one-frame clip. -/
def lastOne (c : Clip α) : Clip α :=
  ⟨min 1 c.len, fun _ => c.frame (c.len - 1)⟩

/-- Python clip[-2:]: the last two frames. -/
def lastTwo (c : Clip α) : Clip α :=
  ⟨min 2 c.len, fun n => c.frame (c.len - 2 + n)⟩

/-- Python clip[i] with an Int index: negative indices count from the end,
out-of-range indices raise IndexError (modelled as none). -/
def clipSingle (c : Clip α) (i : Int) : Option (Clip α) :=
  if 0 ≤ i then
    if i < (c.len : Int) then some ⟨1, fun _ => c.frame i.toNat⟩ else none
  else
    if 0 ≤ i + (c.len : Int) then some ⟨1, fun _ => c.frame (i + (c.len : Int)).toNat⟩
    else none

/-- std.SelectEvery(cycle, offsets): per cycle of the input, the frames at
the listed offsets are kept, in the listed order. -/
def selectEvery (c : Clip α) (cycle : Nat) (offsets : List Nat) : Clip α :=
  ⟨c.len / cycle * offsets.length + (offsets.filter (fun i => i < c.len % cycle)).length,
   fun n => c.frame (cycle * (n / offsets.length) + offsets.getD (n % offsets.length) 0)⟩

/-- Largest length among a list of clips. -/
def maxLen (cs : List (Clip α)) : Nat :=
  cs.foldr (fun c m => max c.len m) 0

/-- std.Interleave: round-robin over the clips.  All call sites modelled
here pass clips of equal length. -/
def interleave [Inhabited α] (cs : List (Clip α)) : Clip α :=
  ⟨cs.length * maxLen cs,
   fun n =>
     match cs[n % cs.length]? with
     | some c => c.request (n / cs.length)
     | none => default⟩

/-! ### RPN expression evaluator (std.Expr / akarin.Expr)

Expression strings are modelled as token lists and evaluated by a stack
machine.  Clip loads go through an access function (clip index, relative
x offset, relative y offset); named single-value variables (akarin's
name! / name@) live in an environment. -/

/-- Named expression variables occurring in the modelled expressions. -/
inductive Var
  | a | b | c | d | e | d1 | d2 | fd | D1 | D2 | D1A | D2A
  deriving DecidableEq

/-- Expression tokens. -/
inductive Tok
  | num (v : ℚ)
  | px (i : Nat) (dx dy : Int)
  | store (v : Var)
  | load (v : Var)
  | add | sub | mul | div
  | abs
  | gt | lt
  | land | lor | lxor
  | tern
  | pmin
  deriving DecidableEq

/-- Run the stack machine over a token list.  Binary operators pop the top
of the stack as their second operand.  Comparisons and logical operators
produce 1 or 0; the ternary operator tests its condition against 0, as in
the expression plugins. -/
def runRPN (acc : Nat → Int → Int → ℚ) : List Tok → List ℚ → (Var → ℚ) → Option ℚ
  | [], r :: _, _ => some r
  | [], [], _ => none
  | t :: ts, st, env =>
    match t, st with
    | .num v, st => runRPN acc ts (v :: st) env
    | .px i dx dy, st => runRPN acc ts (acc i dx dy :: st) env
    | .load v, st => runRPN acc ts (env v :: st) env
    | .store v, x :: st => runRPN acc ts st (fun w => if w = v then x else env w)
    | .add, x :: y :: st => runRPN acc ts ((y + x) :: st) env
    | .sub, x :: y :: st => runRPN acc ts ((y - x) :: st) env
    | .mul, x :: y :: st => runRPN acc ts ((y * x) :: st) env
    | .div, x :: y :: st => runRPN acc ts ((y / x) :: st) env
    | .abs, x :: st => runRPN acc ts (|x| :: st) env
    | .gt, x :: y :: st => runRPN acc ts ((if x < y then (1 : ℚ) else 0) :: st) env
    | .lt, x :: y :: st => runRPN acc ts ((if y < x then (1 : ℚ) else 0) :: st) env
    | .land, x :: y :: st =>
        runRPN acc ts ((if 0 < y ∧ 0 < x then (1 : ℚ) else 0) :: st) env
    | .lor, x :: y :: st =>
        runRPN acc ts ((if 0 < y ∨ 0 < x then (1 : ℚ) else 0) :: st) env
    | .lxor, x :: y :: st =>
        runRPN acc ts ((if (0 < y) ≠ (0 < x) then (1 : ℚ) else 0) :: st) env
    | .tern, x :: y :: z :: st =>
        runRPN acc ts ((if 0 < z then y else x) :: st) env
    | .pmin, x :: y :: st => runRPN acc ts (min y x :: st) env
    | _, _ => none

/-! ### Token lists of the expressions appearing in the sources -/

/-- deblend.py, jdeblend / JIVTC_Deblend: the string
"z a 2 / - y x 2 / - +" over clips x = a, y = ab, z = bc, a = c. -/
def deblendToks : List Tok :=
  [.px 2 0 0, .px 3 0 0, .num 2, .div, .sub,
   .px 1 0 0, .px 0 0 0, .num 2, .div, .sub, .add]

/-- mask.py, comb_mask, metric 0 spatial expression (ex_m0). -/
def m0Toks (cthresh : Int) (peak : ℚ) : List Tok :=
  [.px 0 0 (-2), .store .a, .px 0 0 (-1), .store .b, .px 0 0 0, .store .c,
   .px 0 0 1, .store .d, .px 0 0 2, .store .e,
   .load .c, .load .b, .sub, .store .d1,
   .load .c, .load .d, .sub, .store .d2,
   .load .c, .num 4, .mul, .load .a, .add, .load .e, .add,
   .load .b, .load .d, .add, .num 3, .mul, .sub, .abs, .store .fd,
   .load .d1, .num cthresh, .gt, .load .d2, .num cthresh, .gt, .land,
   .load .d1, .num (-cthresh), .lt, .load .d2, .num (-cthresh), .lt, .land, .lor,
   .load .fd, .num (cthresh * 6), .gt, .land,
   .num peak, .num 0, .tern]

/-- mask.py, comb_mask, metric 1 spatial expression (ex_m1). -/
def m1Toks (cthresh : Int) (peak : ℚ) : List Tok :=
  [.px 0 0 (-1), .px 0 0 0, .sub, .px 0 0 1, .px 0 0 0, .sub, .mul,
   .num cthresh, .gt, .num peak, .num 0, .tern]

/-- mask.py, comb_mask, motion expression (ex_motion). -/
def motionToks (mthresh : Int) (peak : ℚ) : List Tok :=
  [.px 0 0 0, .px 1 0 0, .sub, .abs, .num mthresh, .gt, .num peak, .num 0, .tern]

/-- mask.py, comb_mask: the combination expression "x y min". -/
def minToks : List Tok :=
  [.px 0 0 0, .px 1 0 0, .pmin]

/-- deblend.py, vinverse expression at the JIVTC_Deblend call site
(sstr = 2.7, scl = 0.25, amnt = 255 so no limiting suffix). -/
def vinvToks (sstr scl : ℚ) : List Tok :=
  [.px 1 0 0, .px 2 0 0, .sub, .num sstr, .mul, .store .D1,
   .px 0 0 0, .px 1 0 0, .sub, .store .D2,
   .load .D1, .abs, .store .D1A, .load .D2, .abs, .store .D2A,
   .load .D1, .load .D2, .lxor,
   .load .D1A, .load .D2A, .lt, .load .D1, .load .D2, .tern, .num scl, .mul,
   .load .D1A, .load .D2A, .lt, .load .D1, .load .D2, .tern,
   .tern, .px 1 0 0, .add]

/-! ### Frames with metadata, and the jdeblend selector (deblend.py) -/

/-- A frame as seen by the per-frame callbacks: one representative sample
value plus the two frame properties the callbacks read (the _Combed prop
and the VFMSceneChange prop). -/
structure VFrame where
  data : Int
  combed : Int
  scene : Int
  deriving DecidableEq, Inhabited

/-- deblend.py _inter_pattern: the five interleavings in which exactly one
of the five phase streams is taken from clipb. -/
def interPattern (clipa clipb : Nat → Clip VFrame) (p : Nat) : Clip VFrame :=
  match p with
  | 0 => interleave [clipb 0, clipa 1, clipa 2, clipa 3, clipa 4]
  | 1 => interleave [clipa 0, clipb 1, clipa 2, clipa 3, clipa 4]
  | 2 => interleave [clipa 0, clipa 1, clipb 2, clipa 3, clipa 4]
  | 3 => interleave [clipa 0, clipa 1, clipa 2, clipb 3, clipa 4]
  | _ => interleave [clipa 0, clipa 1, clipa 2, clipa 3, clipb 4]

/-- deblend.py _jdeblend_eval: comb0 and comb1 are the _Combed props of the
two prop-source clips at the requested index; the returned clip is served
through a clamped frame request, and Python clip indexing src[n+1] can
raise (none). -/
def jdeblendEval (n : Nat) (comb0 comb1 : Int) (src : Clip VFrame)
    (inters : Nat → Clip VFrame) : Option (Clip VFrame) :=
  let pattern := n % 5
  let chosen := if comb0 = 1 then inters pattern else src
  if comb0 + comb1 = 2 then clipSingle chosen ((n : Int) + 1) else some chosen

/-- deblend.py jdeblend / jdeblend_bob, selection core (the lines building
select_src, select_dbd, inters, psrc and the FrameEval): src_fm is the
field-matched clip, src the clip whose phase streams fill the non-deblended
slots (the untouched source in jdeblend, src_fm itself in jdeblend_bob) and
dbd the deblended clip built by the preceding lines.  psrc[1] is
src_fm[0] + src_fm[:-1].  The result is the emitted frame at index n. -/
def jdeblendCore (src_fm src dbd : Clip VFrame) (n : Nat) : Option VFrame :=
  let select_src := fun i => selectEvery src 5 [i]
  let select_dbd := fun i => selectEvery dbd 5 [i]
  let inters := interPattern select_src select_dbd
  let comb0 := (src_fm.request n).combed
  let comb1 := ((splice (pyFirst src_fm) (dropLastOne src_fm)).request n).combed
  (jdeblendEval n comb0 comb1 src_fm inters).map (fun c => c.request n)

/-- deblend.py jdeblend_kf, inner callback keyframe(n, f, src): f0 and f1
are the frames of psrc = [src_fm, src_fm[0]+src_fm[:-1]] at index n. -/
def keyframe (n : Nat) (f0 f1 : VFrame) (src : Clip VFrame) : Option (Clip VFrame) :=
  let kf_end := f0.scene > f1.scene
  let kf_start := f0.scene + f1.scene = 2
  let is_cmb := f0.combed = 1
  let chosen := if kf_end ∧ is_cmb then clipSingle src ((n : Int) - 1) else some src
  chosen.bind (fun s => if kf_start ∧ is_cmb then clipSingle s ((n : Int) + 1) else some s)

/-- deblend.py jdeblend_kf: the emitted frame at index n. -/
def jdeblend_kf (src src_fm : Clip VFrame) (n : Nat) : Option VFrame :=
  let f0 := src_fm.request n
  let f1 := (splice (pyFirst src_fm) (dropLastOne src_fm)).request n
  (keyframe n f0 f1 src).map (fun c => c.request n)

/-! ### Helper lemmas about the selector streams -/

instance [Inhabited α] : Inhabited (Clip α) := ⟨⟨0, fun _ => default⟩⟩

lemma selectEvery_single_len (c : Clip α) (k i : Nat) (h : c.len = 5 * k) :
    (selectEvery c 5 [i]).len = k := by
  simp [selectEvery, h, Nat.mul_div_cancel_left, Nat.mul_mod_right]

lemma selectEvery_single_frame (c : Clip α) (i j : Nat) :
    (selectEvery c 5 [i]).frame j = c.frame (5 * j + i) := by
  simp [selectEvery, Nat.mod_one]

lemma selectEvery_single_request (c : Clip α) (k i j : Nat)
    (h : c.len = 5 * k) (hj : j < k) :
    (selectEvery c 5 [i]).request j = c.frame (5 * j + i) := by
  rw [Clip.request, selectEvery_single_len c k i h]
  have hmin : min j (k - 1) = j := by omega
  rw [hmin, selectEvery_single_frame]

lemma interleave5_frame [Inhabited α] (c0 c1 c2 c3 c4 : Clip α) (m : Nat) :
    (interleave [c0, c1, c2, c3, c4]).frame m =
      (([c0, c1, c2, c3, c4].getD (m % 5) default).request (m / 5)) := by
  have h5 : m % 5 = 0 ∨ m % 5 = 1 ∨ m % 5 = 2 ∨ m % 5 = 3 ∨ m % 5 = 4 := by omega
  rcases h5 with h5 | h5 | h5 | h5 | h5 <;>
    simp [interleave, h5]

lemma interPattern_len (src dbd : Clip VFrame) (k p : Nat)
    (hs : src.len = 5 * k) (hd : dbd.len = 5 * k) :
    (interPattern (fun i => selectEvery src 5 [i]) (fun i => selectEvery dbd 5 [i]) p).len
      = 5 * k := by
  rcases p with _ | _ | _ | _ | _ | p <;>
    simp [interPattern, interleave, maxLen,
      selectEvery_single_len src k _ hs, selectEvery_single_len dbd k _ hd]

lemma interPattern_frame (src dbd : Clip VFrame) (k p m : Nat) (hp : p < 5)
    (hs : src.len = 5 * k) (hd : dbd.len = 5 * k) (hm : m < 5 * k) :
    (interPattern (fun i => selectEvery src 5 [i]) (fun i => selectEvery dbd 5 [i]) p).frame m
      = if m % 5 = p then dbd.frame m else src.frame m := by
  have hdiv : m / 5 < k := Nat.div_lt_of_lt_mul (by omega)
  have h5 : m % 5 = 0 ∨ m % 5 = 1 ∨ m % 5 = 2 ∨ m % 5 = 3 ∨ m % 5 = 4 := by omega
  interval_cases p <;>
    (rcases h5 with h5 | h5 | h5 | h5 | h5 <;>
      (simp [interPattern, interleave5_frame, h5,
        selectEvery_single_request src k _ _ hs hdiv,
        selectEvery_single_request dbd k _ _ hd hdiv]
       congr 1
       omega))

lemma clipSingle_natCast (c : Clip α) (m : Nat) :
    clipSingle c (m : Int) =
      if m < c.len then some ⟨1, fun _ => c.frame m⟩ else none := by
  rw [clipSingle, if_pos (Int.natCast_nonneg m)]
  by_cases h : m < c.len
  · rw [if_pos (by exact_mod_cast h), if_pos h]
    simp
  · rw [if_neg (by exact_mod_cast h), if_neg h]

lemma oneFrame_request (f : Nat → α) (n : Nat) :
    (Clip.mk 1 f).request n = f 0 := by
  simp [Clip.request]

/-- The second prop source psrc[1] = src_fm[0] + src_fm[:-1] holds at index
m the frame m-1 of src_fm (frame 0 at m = 0). -/
lemma psrc1_frame (c : Clip α) (m : Nat) (h : 0 < c.len) :
    (splice (pyFirst c) (dropLastOne c)).frame m = c.frame (m - 1) := by
  have h1 : min 1 c.len = 1 := by omega
  simp only [splice, pyFirst, dropLastOne, h1]
  by_cases hm0 : m < 1
  · rw [if_pos hm0]
    congr 1
    omega
  · rw [if_neg hm0]

lemma psrc1_len (c : Clip α) (h : 0 < c.len) :
    (splice (pyFirst c) (dropLastOne c)).len = c.len := by
  simp [splice, pyFirst, dropLastOne]
  omega

/-- C1 (amended form: backward window).  The jdeblend / jdeblend_bob output
frame at index n: if _Combed of frame n is set, the frame comes from the
candidate stream of phase n mod 5 (hence it is the deblended frame at n);
if additionally _Combed of frame n-1 is set, the emitted frame is frame n+1
of that candidate stream (the base stream's frame n+1, since n+1 has a
different phase), which raises an index error at the last frame; otherwise
the field-matched frame n passes through. -/
theorem jdeblend_selection (src_fm src dbd : Clip VFrame) (k n : Nat)
    (h1 : src_fm.len = 5 * k) (h2 : src.len = 5 * k) (h3 : dbd.len = 5 * k)
    (hn : n < 5 * k)
    (hc0 : (src_fm.frame n).combed = 0 ∨ (src_fm.frame n).combed = 1)
    (hc1 : (src_fm.frame (n - 1)).combed = 0 ∨ (src_fm.frame (n - 1)).combed = 1) :
    jdeblendCore src_fm src dbd n =
      if (src_fm.frame n).combed = 1 then
        (if (src_fm.frame (n - 1)).combed = 1 then
          (if n + 1 < 5 * k then some (src.frame (n + 1)) else none)
         else some (dbd.frame n))
      else some (src_fm.frame n) := by
  have hk : 0 < k := by omega
  have hreq0 : src_fm.request n = src_fm.frame n := by
    rw [Clip.request, h1]
    congr 1
    omega
  have hreq1 : (splice (pyFirst src_fm) (dropLastOne src_fm)).request n
      = src_fm.frame (n - 1) := by
    rw [Clip.request, psrc1_len src_fm (by omega), psrc1_frame src_fm _ (by omega), h1]
    congr 1
    omega
  have hcast : (n : Int) + 1 = ((n + 1 : Nat) : Int) := by push_cast; ring
  have hmod : n % 5 < 5 := by omega
  rcases hc0 with hc0 | hc0 <;> rcases hc1 with hc1 | hc1 <;>
    simp only [jdeblendCore, jdeblendEval, hreq0, hreq1, hc0, hc1]
  · simp [hreq0]
  · simp [hreq0]
  · -- combed n = 1, combed (n-1) = 0: candidate stream, no shift
    norm_num
    rw [Clip.request, interPattern_len src dbd k _ h2 h3]
    have hm : min n (5 * k - 1) = n := by omega
    rw [hm, interPattern_frame src dbd k _ n hmod h2 h3 hn, if_pos rfl]
  · -- combed n = 1 and combed (n-1) = 1: forward shift
    norm_num
    rw [hcast, clipSingle_natCast, interPattern_len src dbd k _ h2 h3]
    by_cases hlt : n + 1 < 5 * k
    · rw [if_pos hlt, if_pos hlt]
      norm_num [oneFrame_request]
      rw [interPattern_frame src dbd k _ (n + 1) hmod h2 h3 hlt,
        if_neg (by omega)]
    · rw [if_neg hlt, if_neg hlt]
      rfl

/-- Concrete field-matched clip for the C1 counterexample: frames 1 and 2
are flagged combed, frame 0 is not. -/
def cxSrcFm : Clip VFrame :=
  ⟨10, fun n => ⟨(n : Int), [0, 1, 1, 0, 0, 0, 0, 0, 0, 0].getD n 0, 0⟩⟩

/-- Concrete base clip for the C1 counterexample. -/
def cxSrc : Clip VFrame :=
  ⟨10, fun n => ⟨(100 + n : Int), 0, 0⟩⟩

/-- Concrete deblended clip for the C1 counterexample. -/
def cxDbd : Clip VFrame :=
  ⟨10, fun n => ⟨(200 + n : Int), 0, 0⟩⟩

/-- Modelled from the claim text of C1 (spec section 4.4): the same
selection, but with the forward metadata window combed[n], combed[n+1]:
shift to frame n+1 exactly when both the current and the NEXT frame are
flagged combed. -/
def jdeblendSpecEmit (src_fm src dbd : Clip VFrame) (n : Nat) : Option VFrame :=
  let select_src := fun i => selectEvery src 5 [i]
  let select_dbd := fun i => selectEvery dbd 5 [i]
  let inters := interPattern select_src select_dbd
  let comb0 := (src_fm.request n).combed
  let comb1 := (src_fm.request (n + 1)).combed
  let chosen := if comb0 = 1 then inters (n % 5) else src_fm
  if comb0 = 1 ∧ comb1 = 1 then some (chosen.request (n + 1))
  else some (chosen.request n)

/-- C1 counterexample: at n = 1 with combed = [0,1,1,0,...] the code
(backward window: combed[1] = 1, combed[0] = 0, no shift, emits the
deblended frame 1) differs from the claim (forward window: combed[1] =
combed[2] = 1, shift, emits base frame 2). -/
theorem jdeblend_selection_cx :
    jdeblendCore cxSrcFm cxSrc cxDbd 1 = some ⟨201, 0, 0⟩ ∧
    jdeblendSpecEmit cxSrcFm cxSrc cxDbd 1 = some ⟨102, 0, 0⟩ := by
  constructor <;> rfl

/-- Witness for jdeblend_selection at a concrete instance. -/
theorem jdeblend_selection_witness :
    jdeblendCore cxSrcFm cxSrc cxDbd 6 = some (cxSrcFm.frame 6) := by
  have h := jdeblend_selection cxSrcFm cxSrc cxDbd 2 6 rfl rfl rfl
    (by omega) (by left; rfl) (by left; rfl)
  simpa using h

lemma clipSingle_sub_one (c : Clip α) (n : Nat) (h1 : 1 ≤ n) (h2 : n ≤ c.len) :
    clipSingle c ((n : Int) - 1) = some ⟨1, fun _ => c.frame (n - 1)⟩ := by
  have hc : (n : Int) - 1 = ((n - 1 : Nat) : Int) := by omega
  rw [hc, clipSingle_natCast, if_pos (by omega)]

/-- Full case analysis of the jdeblend_kf callback, for 0/1 scene-change
flags: the kf_end override picks frame n-1, the kf_start override picks
frame n+1 (raising an index error at the last frame), otherwise frame n
passes through. -/
lemma jdeblend_kf_cases (src src_fm : Clip VFrame) (n : Nat)
    (hlen : src.len = src_fm.len) (hn : n < src.len)
    (hs0 : (src_fm.frame n).scene = 0 ∨ (src_fm.frame n).scene = 1)
    (hs1 : (src_fm.frame (n - 1)).scene = 0 ∨ (src_fm.frame (n - 1)).scene = 1) :
    jdeblend_kf src src_fm n =
      if (src_fm.frame n).combed = 1 ∧
          (src_fm.frame n).scene > (src_fm.frame (n - 1)).scene then
        some (src.frame (n - 1))
      else if (src_fm.frame n).combed = 1 ∧
          (src_fm.frame n).scene + (src_fm.frame (n - 1)).scene = 2 then
        (if n + 1 < src.len then some (src.frame (n + 1)) else none)
      else some (src.frame n) := by
  have hpos : 0 < src_fm.len := by omega
  have hreq0 : src_fm.request n = src_fm.frame n := by
    rw [Clip.request]
    congr 1
    omega
  have hreq1 : (splice (pyFirst src_fm) (dropLastOne src_fm)).request n
      = src_fm.frame (n - 1) := by
    rw [Clip.request, psrc1_len src_fm hpos, psrc1_frame src_fm _ hpos]
    congr 1
    omega
  have hreqn : src.request n = src.frame n := by
    rw [Clip.request]
    congr 1
    omega
  have hcast : (n : Int) + 1 = ((n + 1 : Nat) : Int) := by push_cast; ring
  by_cases hcmb : (src_fm.frame n).combed = 1
  · rcases hs0 with hs0 | hs0 <;> rcases hs1 with hs1 | hs1 <;>
      simp only [jdeblend_kf, keyframe, hreq0, hreq1, hs0, hs1, hcmb]
    · -- scene n = 0, scene (n-1) = 0
      norm_num [hreqn]
    · -- scene n = 0, scene (n-1) = 1
      norm_num [hreqn]
    · -- scene n = 1, scene (n-1) = 0: kf_end fires (n = 0 is impossible)
      rcases Nat.eq_zero_or_pos n with hn0 | hn0
      · subst hn0
        rw [Nat.zero_sub] at hs1
        omega
      · norm_num
        rw [clipSingle_sub_one src n hn0 (by omega)]
        norm_num [oneFrame_request]
    · -- scene n = 1, scene (n-1) = 1: kf_start fires
      norm_num
      rw [hcast, clipSingle_natCast]
      by_cases hlt : n + 1 < src.len
      · rw [if_pos hlt, if_pos hlt]
        norm_num [oneFrame_request]
      · rw [if_neg hlt, if_neg hlt]
        rfl
  · simp only [jdeblend_kf, keyframe, hreq0, hcmb]
    norm_num [hreqn, hcmb]

/-- C2 (amended form).  The scene-boundary corrector: with kf_end defined
as sceneFlag[n] > sceneFlag[n-1] (not the claimed sceneFlag[n-1] +
sceneFlag[n] == 1), jdeblend_kf emits frame n-1 of the chosen stream when
combed[n] and kf_end hold, frame n+1 when combed[n] and kf_start hold
(raising an index error when n is the last frame), and otherwise passes
frame n through unchanged. -/
theorem jdeblend_kf_rule (src src_fm : Clip VFrame) (n : Nat)
    (hlen : src.len = src_fm.len) (hn : n < src.len)
    (hs0 : (src_fm.frame n).scene = 0 ∨ (src_fm.frame n).scene = 1)
    (hs1 : (src_fm.frame (n - 1)).scene = 0 ∨ (src_fm.frame (n - 1)).scene = 1) :
    jdeblend_kf src src_fm n =
      if (src_fm.frame n).combed = 1 ∧
          (src_fm.frame n).scene > (src_fm.frame (n - 1)).scene then
        some (src.frame (n - 1))
      else if (src_fm.frame n).combed = 1 ∧
          (src_fm.frame n).scene + (src_fm.frame (n - 1)).scene = 2 then
        (if n + 1 < src.len then some (src.frame (n + 1)) else none)
      else some (src.frame n) :=
  jdeblend_kf_cases src src_fm n hlen hn hs0 hs1

/-- Field-matched clip for the C2 counterexample: every frame combed,
scene flags 1 then 0 (a boundary that ENDS at frame 1 in the claim's
sum == 1 reading, but not in the code's greater-than reading). -/
def cx2Fm : Clip VFrame :=
  ⟨2, fun n => ⟨0, 1, [1, 0].getD n 0⟩⟩

/-- Deblended input clip for the C2 counterexample. -/
def cx2Src : Clip VFrame :=
  ⟨2, fun n => ⟨(10 + n : Int), 0, 0⟩⟩

/-- Modelled from the claim text of C2 (spec section 4.5): kf_end tested
as sceneFlag[n-1] + sceneFlag[n] == 1 (indices served through clamped
requests). -/
def jdeblend_kf_spec (src src_fm : Clip VFrame) (n : Nat) : VFrame :=
  let s0 := (src_fm.request n).scene
  let s1 := (src_fm.request (n - 1)).scene
  let cmb := (src_fm.request n).combed = 1
  if cmb ∧ s1 + s0 = 1 then src.request (n - 1)
  else if cmb ∧ s1 + s0 = 2 then src.request (n + 1)
  else src.request n

/-- C2 counterexample: at n = 1 with scene flags (1, 0) and a combed frame,
the claimed rule (kf_end as sum == 1) emits frame 0, while the code
(kf_end as flag[n] > flag[n-1]) passes frame 1 through. -/
theorem jdeblend_kf_rule_cx :
    jdeblend_kf cx2Src cx2Fm 1 = some ⟨11, 0, 0⟩ ∧
    jdeblend_kf_spec cx2Src cx2Fm 1 = ⟨10, 0, 0⟩ := by
  constructor <;> rfl

/-- Witness for jdeblend_kf_rule at a concrete instance. -/
theorem jdeblend_kf_rule_witness :
    jdeblend_kf cx2Src cx2Fm 1 = some (cx2Src.frame 1) := by
  have h := jdeblend_kf_rule cx2Src cx2Fm 1 rfl (by decide)
    (by decide) (by decide)
  simpa using h

/-- C6 (amended form).  Boundary behaviour of jdeblend_kf with 0/1 scene
flags: the n-1 override never produces an index below 0 (at n = 0 kf_end
cannot fire because the prop window duplicates frame 0), and every emitted
frame comes from an index within [0, len-1]; but at the last frame the
combed-and-kf_start case requests index len, which raises an index error
instead of clamping - that is the only error case. -/
theorem jdeblend_kf_boundary (src src_fm : Clip VFrame) (n : Nat)
    (hlen : src.len = src_fm.len) (hn : n < src.len)
    (hs0 : (src_fm.frame n).scene = 0 ∨ (src_fm.frame n).scene = 1)
    (hs1 : (src_fm.frame (n - 1)).scene = 0 ∨ (src_fm.frame (n - 1)).scene = 1) :
    (jdeblend_kf src src_fm n = none ↔
      ((src_fm.frame n).combed = 1 ∧
        (src_fm.frame n).scene + (src_fm.frame (n - 1)).scene = 2 ∧
        n + 1 = src.len)) ∧
    (∀ fr, jdeblend_kf src src_fm n = some fr →
      ∃ m, m < src.len ∧ fr = src.frame m) := by
  rw [jdeblend_kf_cases src src_fm n hlen hn hs0 hs1]
  split_ifs with hA hB hC
  · constructor
    · constructor
      · intro h
        exact absurd h (by simp)
      · intro h
        omega
    · intro fr hfr
      exact ⟨n - 1, by omega, by simpa using hfr.symm⟩
  · constructor
    · constructor
      · intro h
        exact absurd h (by simp)
      · intro h
        omega
    · intro fr hfr
      exact ⟨n + 1, by omega, by simpa using hfr.symm⟩
  · constructor
    · constructor
      · intro _
        exact ⟨hB.1, hB.2, by omega⟩
      · intro _
        rfl
    · intro fr hfr
      cases hfr
  · constructor
    · constructor
      · intro h
        exact absurd h (by simp)
      · intro h
        exact absurd ⟨h.1, h.2.1⟩ hB
    · intro fr hfr
      exact ⟨n, by omega, by simpa using hfr.symm⟩

/-- Field-matched clip for the C6 counterexample: combed everywhere,
scene flag raised on both frames. -/
def cx6Fm : Clip VFrame :=
  ⟨2, fun _ => ⟨0, 1, 1⟩⟩

/-- Input clip for the C6 counterexample. -/
def cx6Src : Clip VFrame :=
  ⟨2, fun n => ⟨(20 + n : Int), 0, 0⟩⟩

/-- C6 counterexample: requesting the last frame (n = 1) with combed set
and kf_start holding makes the code index past the end and fail, instead
of clamping as the claim asserts. -/
theorem jdeblend_kf_boundary_cx :
    jdeblend_kf cx6Src cx6Fm 1 = none := by
  rfl

/-- Witness for jdeblend_kf_boundary at a concrete instance. -/
theorem jdeblend_kf_boundary_witness :
    (jdeblend_kf cx2Src cx2Fm 0 = none ↔
      ((cx2Fm.frame 0).combed = 1 ∧
        (cx2Fm.frame 0).scene + (cx2Fm.frame (0 - 1)).scene = 2 ∧
        0 + 1 = cx2Src.len)) ∧
    (∀ fr, jdeblend_kf cx2Src cx2Fm 0 = some fr →
      ∃ m, m < cx2Src.len ∧ fr = cx2Src.frame m) :=
  jdeblend_kf_boundary cx2Src cx2Fm 0 rfl (by decide)
    (by decide) (by decide)

/-! ### The deblend pixel kernel (deblend.py lines 49-50 and 134-135) -/

/-- a = src[0] + src[:-1]. -/
def shiftA (c : Clip α) : Clip α := splice (pyFirst c) (dropLastOne c)

/-- bc = src[1:] + src[-1]. -/
def shiftBC (c : Clip α) : Clip α := splice (dropFirst 1 c) (lastOne c)

/-- c = src[2:] + src[-2:]. -/
def shiftC (c : Clip α) : Clip α := splice (dropFirst 2 c) (lastTwo c)

/-- std.Expr over single-sample clips: the expression is evaluated per
frame with clip variables bound to the (clamped) frame requests; shorter
clips repeat their last frame. -/
def exprClipQ (toks : List Tok) (cs : List (Clip ℚ)) : Clip ℚ :=
  ⟨maxLen cs,
   fun n => (runRPN (fun i _ _ => (cs.map (fun c => c.request n)).getD i 0)
      toks [] (fun _ => 0)).getD 0⟩

/-- The deblended stream dbd = Expr([a, ab, bc, c], "z a 2 / - y x 2 / - +"). -/
def deblendStream (src : Clip ℚ) : Clip ℚ :=
  exprClipQ deblendToks [shiftA src, src, shiftBC src, shiftC src]

lemma runRPN_deblend (acc : Nat → Int → Int → ℚ) (env : Var → ℚ) :
    runRPN acc deblendToks [] env =
      some ((acc 2 0 0 - acc 3 0 0 / 2) + (acc 1 0 0 - acc 0 0 0 / 2)) := rfl

lemma shiftA_request (c : Clip α) (n : Nat) (hn : n < c.len) :
    (shiftA c).request n = c.frame (n - 1) := by
  rw [shiftA, Clip.request, psrc1_len c (by omega), psrc1_frame c _ (by omega)]
  congr 1
  omega

lemma shiftBC_len (c : Clip α) (h : 0 < c.len) : (shiftBC c).len = c.len := by
  simp [shiftBC, splice, dropFirst, lastOne]
  omega

lemma shiftBC_request (c : Clip α) (n : Nat) (hn : n < c.len) :
    (shiftBC c).request n = c.frame (min (n + 1) (c.len - 1)) := by
  rw [Clip.request, shiftBC_len c (by omega)]
  have hm : min n (c.len - 1) = n := by omega
  rw [hm]
  simp only [shiftBC, splice, dropFirst, lastOne]
  by_cases hlt : n < c.len - 1
  · rw [if_pos hlt]
    congr 1
    omega
  · rw [if_neg hlt]
    congr 1
    omega

lemma shiftC_len (c : Clip α) (h : 0 < c.len) : (shiftC c).len = c.len := by
  simp [shiftC, splice, dropFirst, lastTwo]
  omega

lemma shiftC_request (c : Clip α) (n : Nat) (hn : n < c.len) :
    (shiftC c).request n = c.frame (if n + 2 < c.len then n + 2 else n) := by
  rw [Clip.request, shiftC_len c (by omega)]
  have hm : min n (c.len - 1) = n := by omega
  rw [hm]
  simp only [shiftC, splice, dropFirst, lastTwo]
  by_cases hlt : n < c.len - 2
  · rw [if_pos hlt, if_pos (by omega)]
  · rw [if_neg hlt, if_neg (by omega)]
    congr 1
    omega

lemma deblendStream_len (src : Clip ℚ) (h : 0 < src.len) :
    (deblendStream src).len = src.len := by
  have h1 : (shiftA src).len = src.len := psrc1_len src h
  have h2 : (shiftBC src).len = src.len := shiftBC_len src h
  have h3 : (shiftC src).len = src.len := shiftC_len src h
  simp [deblendStream, exprClipQ, maxLen, h1, h2, h3]

/-- C3 (amended form).  The deblended frame at n equals
(bc - c/2) + (ab - a/2) with a = frame[n-1] clamped at 0 and
bc = frame[n+1] clamped at the end, as claimed; but c = frame[n+2] only up
to index len-3: the tail of the c-shift is the last TWO frames in order
(src[-2:]), so at the last two indices c resolves to frame n itself, not
to the clamped last frame. -/
theorem deblend_kernel (src : Clip ℚ) (n : Nat) (hn : n < src.len) :
    (deblendStream src).frame n =
      (src.frame (min (n + 1) (src.len - 1)) -
        src.frame (if n + 2 < src.len then n + 2 else n) / 2) +
      (src.frame n - src.frame (n - 1) / 2) := by
  have hreq : src.request n = src.frame n := by
    rw [Clip.request]
    congr 1
    omega
  simp only [deblendStream, exprClipQ, runRPN_deblend, Option.getD_some,
    List.map_cons, List.map_nil, List.getD_cons_zero, List.getD_cons_succ,
    shiftA_request src n hn, shiftBC_request src n hn, shiftC_request src n hn,
    hreq]

/-- The concrete 4-frame clip of the C3 counterexample: values 0,0,0,2. -/
def cxQ : Clip ℚ :=
  ⟨4, fun n => if n = 3 then 2 else 0⟩

/-- C3 counterexample: at the second-to-last index n = 2 of a 4-frame
stream with values 0,0,0,2, the code gives frame value 2 (c resolves to
frame 2 itself via src[-2:]), while the claimed clamping (c = frame 3)
would give 1. -/
theorem deblend_kernel_cx :
    (deblendStream cxQ).frame 2 = 2 ∧
    (cxQ.frame (min (2 + 1) (cxQ.len - 1)) - cxQ.frame (min (2 + 2) (cxQ.len - 1)) / 2) +
      (cxQ.frame 2 - cxQ.frame (2 - 1) / 2) = 1 := by
  have h4 : (2 : Nat) < cxQ.len := by norm_num [cxQ]
  constructor
  · simp only [deblendStream, exprClipQ, runRPN_deblend, Option.getD_some,
      List.map_cons, List.map_nil, List.getD_cons_zero, List.getD_cons_succ,
      shiftA_request cxQ 2 h4, shiftBC_request cxQ 2 h4, shiftC_request cxQ 2 h4]
    norm_num [cxQ, Clip.request]
  · norm_num [cxQ]

/-- Witness for deblend_kernel at a concrete instance. -/
theorem deblend_kernel_witness :
    (deblendStream cxQ).frame 1 =
      (cxQ.frame (min (1 + 1) (cxQ.len - 1)) -
        cxQ.frame (if 1 + 2 < cxQ.len then 1 + 2 else 1) / 2) +
      (cxQ.frame 1 - cxQ.frame (1 - 1) / 2) :=
  deblend_kernel cxQ 1 (by decide)

/-! ### Cadence tables (deblend.py JIVTC_Deblend, deinterlace.py decimate) -/

/-- deblend.py line 128: cycle10 (the re-interleave table). -/
def cycle10 : List (List Nat) :=
  [[0, 3, 6, 8], [0, 2, 5, 8], [0, 2, 4, 7], [2, 4, 6, 9], [1, 4, 6, 8]]

/-- deblend.py line 129: cycle08 (the merge table). -/
def cycle08 : List (List Nat) :=
  [[0, 3, 4, 6], [0, 2, 5, 6], [0, 2, 4, 7], [0, 2, 4, 7], [1, 2, 4, 6]]

/-- deblend.py line 130: cycle05 (the decimate5 table). -/
def cycle05 : List (List Nat) :=
  [[0, 1, 3, 4], [0, 1, 2, 4], [0, 1, 2, 3], [1, 2, 3, 4], [0, 2, 3, 4]]

/-- deinterlace.py line 19: selectlist (the single_drop5 table). -/
def selectlist : List (List Nat) :=
  [[1, 2, 3, 4], [0, 2, 3, 4], [0, 1, 3, 4], [0, 1, 2, 4], [0, 1, 2, 3]]

/-- deinterlace.py decimate. -/
def decimate (src : Clip α) (pattern : Int) : Clip α :=
  selectEvery src 5 (selectlist.getD (pattern % 5).toNat [])

/-- C4.  The four cadence tables equal the literal tables of the spec, and
every row of every table holds exactly 4 distinct, strictly ascending
indices inside its declared domain (0-9 for the re-interleave table, 0-7
for the merge table, 0-4 for the two decimation tables). -/
theorem cadence_tables :
    cycle10 = [[0, 3, 6, 8], [0, 2, 5, 8], [0, 2, 4, 7], [2, 4, 6, 9], [1, 4, 6, 8]] ∧
    cycle08 = [[0, 3, 4, 6], [0, 2, 5, 6], [0, 2, 4, 7], [0, 2, 4, 7], [1, 2, 4, 6]] ∧
    cycle05 = [[0, 1, 3, 4], [0, 1, 2, 4], [0, 1, 2, 3], [1, 2, 3, 4], [0, 2, 3, 4]] ∧
    selectlist = [[1, 2, 3, 4], [0, 2, 3, 4], [0, 1, 3, 4], [0, 1, 2, 4], [0, 1, 2, 3]] ∧
    cycle10.length = 5 ∧ cycle08.length = 5 ∧ cycle05.length = 5 ∧ selectlist.length = 5 ∧
    (∀ row ∈ cycle10, row.length = 4 ∧ row.Pairwise (fun x y => x ≠ y) ∧ row.Pairwise (fun x y => x < y) ∧
      ∀ x ∈ row, x ≤ 9) ∧
    (∀ row ∈ cycle08, row.length = 4 ∧ row.Pairwise (fun x y => x ≠ y) ∧ row.Pairwise (fun x y => x < y) ∧
      ∀ x ∈ row, x ≤ 7) ∧
    (∀ row ∈ cycle05, row.length = 4 ∧ row.Pairwise (fun x y => x ≠ y) ∧ row.Pairwise (fun x y => x < y) ∧
      ∀ x ∈ row, x ≤ 4) ∧
    (∀ row ∈ selectlist, row.length = 4 ∧ row.Pairwise (fun x y => x ≠ y) ∧ row.Pairwise (fun x y => x < y) ∧
      ∀ x ∈ row, x ≤ 4) := by
  decide

/-! ### comb_mask (mask.py): planes, expression application, dilation -/

/-- Clamp an Int coordinate into [0, n-1] (akarin.Expr relative pixel
access and the morphological filters clamp at the frame borders). -/
def clampIdx (n : Nat) (i : Int) : Nat :=
  (max 0 (min i ((n : Int) - 1))).toNat

/-- A single video plane: height, width and a total pixel function. -/
structure MPlane where
  h : Nat
  w : Nat
  px : Nat → Nat → ℚ

instance : Inhabited MPlane := ⟨⟨0, 0, fun _ _ => 0⟩⟩

/-- Clamped pixel access. -/
def pxAt (p : MPlane) (r c : Int) : ℚ :=
  p.px (clampIdx p.h r) (clampIdx p.w c)

/-- akarin.Expr on one frame: every output pixel evaluates the token list,
with clip variable i at relative offset (dx, dy) reading the i-th input
plane at the clamped coordinate. -/
def exprFrame (toks : List Tok) (fs : List MPlane) : MPlane :=
  ⟨(fs.headD default).h, (fs.headD default).w,
   fun r c =>
     (runRPN (fun i dx dy => pxAt (fs.getD i default) ((r : Int) + dy) ((c : Int) + dx))
       toks [] (fun _ => 0)).getD 0⟩

/-- akarin.Expr on clips: framewise application; shorter clips repeat
their last frame (clamped requests), the output is as long as the longest
input. -/
def exprClip (toks : List Tok) (cs : List (Clip MPlane)) : Clip MPlane :=
  ⟨maxLen cs, fun n => exprFrame toks (cs.map (fun c => c.request n))⟩

/-- std.Maximum neighbour offsets (dx, dy), in the order of the
coordinates parameter: top-left, top, top-right, left, right,
bottom-left, bottom, bottom-right. -/
def maxCoordOffsets : List (Int × Int) :=
  [(-1, -1), (0, -1), (1, -1), (-1, 0), (1, 0), (-1, 1), (0, 1), (1, 1)]

/-- std.Maximum with a coordinates mask: every output pixel is the max of
the centre pixel and the selected neighbours (clamped at borders). -/
def dilate (coords : List Nat) (c : Clip MPlane) : Clip MPlane :=
  ⟨c.len, fun n =>
    let f := c.frame n
    ⟨f.h, f.w, fun r c0 =>
      (maxCoordOffsets.zip coords).foldl
        (fun m po =>
          if po.2 = 1 then max m (pxAt f ((r : Int) + po.1.2) ((c0 : Int) + po.1.1)) else m)
        (f.px r c0)⟩⟩

/-- mask.py comb_mask: the spatial mask (ex_m1 if metric is nonzero,
ex_m0 otherwise). -/
def spatialStage (src : Clip MPlane) (cthresh : Int) (peak : ℚ) (metric : Int) :
    Clip MPlane :=
  exprClip (if metric ≠ 0 then m1Toks cthresh peak else m0Toks cthresh peak) [src]

/-- mask.py comb_mask: the raw motion mask,
Expr([src, src[0] + src], ex_motion). -/
def motionRawStage (src : Clip MPlane) (mthresh : Int) (peak : ℚ) : Clip MPlane :=
  exprClip (motionToks mthresh peak) [src, splice (pyFirst src) src]

/-- mask.py comb_mask: the motion mask after the vertical
std.Maximum(coordinates=[0,1,0,0,0,0,1,0]). -/
def motionStage (src : Clip MPlane) (mthresh : Int) (peak : ℚ) : Clip MPlane :=
  dilate [0, 1, 0, 0, 0, 0, 1, 0] (motionRawStage src mthresh peak)

/-- mask.py comb_mask: Expr([spatial_mask, motion_mask], "x y min"). -/
def combStage (src : Clip MPlane) (cthresh mthresh : Int) (peak : ℚ) (metric : Int) :
    Clip MPlane :=
  exprClip minToks [spatialStage src cthresh peak metric, motionStage src mthresh peak]

/-- mask.py comb_mask for a single-plane clip (planes=None): parameter
validation, then the spatial mask alone when mthresh == 0, else the min
combination with the dilated motion mask; expand applies the horizontal
std.Maximum(coordinates=[0,0,0,1,1,0,0,0]).  peak stands for
get_peak_value(src), a constant of the sample format. -/
def comb_mask (src : Clip MPlane) (peak : ℚ) (cthresh mthresh : Int)
    (expand : Bool) (metric : Int) : Except String (Clip MPlane) :=
  let cth_max : Int := if metric ≠ 0 then 65025 else 255
  if cthresh > cth_max ∨ cthresh < 0 then
    .error "comb_mask: cthresh out of range for this metric."
  else if mthresh > 255 ∨ mthresh < 0 then
    .error "comb_mask: mthresh must be between 0 and 255."
  else if mthresh = 0 then
    .ok (if expand then dilate [0, 0, 0, 1, 1, 0, 0, 0] (spatialStage src cthresh peak metric)
         else spatialStage src cthresh peak metric)
  else
    .ok (if expand then dilate [0, 0, 0, 1, 1, 0, 0, 0] (combStage src cthresh mthresh peak metric)
         else combStage src cthresh mthresh peak metric)

/-- C9.  Parameter validation of comb_mask: an error is raised, before any
derived stream is constructed, exactly when cthresh lies outside [0, 255]
for metric 0 or outside [0, 65025] for metric 1, or when mthresh lies
outside [0, 255]. -/
theorem comb_mask_validation (src : Clip MPlane) (peak : ℚ) (cthresh mthresh : Int)
    (expand : Bool) (metric : Int) (hm : metric = 0 ∨ metric = 1) :
    (∃ e, comb_mask src peak cthresh mthresh expand metric = .error e) ↔
      (cthresh < 0 ∨ cthresh > (if metric = 0 then 255 else 65025) ∨
        mthresh < 0 ∨ mthresh > 255) := by
  rcases hm with hm | hm <;> subst hm <;>
    simp only [comb_mask] <;> split_ifs <;>
      simp_all <;> omega

/-- Concrete one-frame flat clip for the C9 witness. -/
def cxMask : Clip MPlane :=
  ⟨1, fun _ => ⟨5, 1, fun _ _ => 0⟩⟩

/-- Witness for comb_mask_validation at a concrete instance. -/
theorem comb_mask_validation_witness :
    ((∃ e, comb_mask cxMask 255 300 9 true 0 = .error e) ↔
      ((300 : Int) < 0 ∨ (300 : Int) > (if (0 : Int) = 0 then 255 else 65025) ∨
        (9 : Int) < 0 ∨ (9 : Int) > 255)) :=
  comb_mask_validation cxMask 255 300 9 true 0 (Or.inl rfl)

lemma pxAt_of_bounds (f : MPlane) (r c : Int) (hr0 : 0 ≤ r) (hrh : r < (f.h : Int))
    (hc0 : 0 ≤ c) (hcw : c < (f.w : Int)) :
    pxAt f r c = f.px r.toNat c.toNat := by
  rw [pxAt]
  congr 1 <;> (rw [clampIdx]; omega)

/-- Closed form of the metric-0 spatial expression: with a = x[0,-2],
b = x[0,-1], c = x, d = x[0,1], e = x[0,2], the result is peak exactly
when ((c-b > cthresh and c-d > cthresh) or (c-b < -cthresh and
c-d < -cthresh)) and |c*4 + a + e - (b+d)*3| > cthresh*6, else 0. -/
lemma runRPN_m0 (acc : Nat → Int → Int → ℚ) (cth : Int) (peak : ℚ) :
    runRPN acc (m0Toks cth peak) [] (fun _ => 0) =
      some (if ((((cth : ℚ) < acc 0 0 0 - acc 0 0 (-1) ∧
                  (cth : ℚ) < acc 0 0 0 - acc 0 0 1) ∨
                 (acc 0 0 0 - acc 0 0 (-1) < -(cth : ℚ) ∧
                  acc 0 0 0 - acc 0 0 1 < -(cth : ℚ))) ∧
                (cth : ℚ) * 6 <
                  |acc 0 0 0 * 4 + acc 0 0 (-2) + acc 0 0 2 -
                    (acc 0 0 (-1) + acc 0 0 1) * 3|)
        then peak else 0) := by
  by_cases h1 : (cth : ℚ) < acc 0 0 0 - acc 0 0 (-1) <;>
  by_cases h2 : (cth : ℚ) < acc 0 0 0 - acc 0 0 1 <;>
  by_cases h3 : acc 0 0 0 - acc 0 0 (-1) < -(cth : ℚ) <;>
  by_cases h4 : acc 0 0 0 - acc 0 0 1 < -(cth : ℚ) <;>
  by_cases h5 : (cth : ℚ) * 6 <
      |acc 0 0 0 * 4 + acc 0 0 (-2) + acc 0 0 2 - (acc 0 0 (-1) + acc 0 0 1) * 3| <;>
    simp [m0Toks, runRPN, h1, h2, h3, h4, h5, mul_comm]

/-- Helper: per-pixel closed form of the metric-0 spatial mask. -/
lemma spatialStage0_px (src : Clip MPlane) (cth : Int) (peak : ℚ)
    (n r c : Nat) (hn : n < src.len) (hr2 : 2 ≤ r)
    (hrh : r + 2 < (src.frame n).h) (hcw : c < (src.frame n).w) :
    ((spatialStage src cth peak 0).frame n).px r c =
      if ((((cth : ℚ) < (src.frame n).px r c - (src.frame n).px (r - 1) c ∧
            (cth : ℚ) < (src.frame n).px r c - (src.frame n).px (r + 1) c) ∨
           ((src.frame n).px r c - (src.frame n).px (r - 1) c < -(cth : ℚ) ∧
            (src.frame n).px r c - (src.frame n).px (r + 1) c < -(cth : ℚ))) ∧
          6 * (cth : ℚ) <
            |4 * (src.frame n).px r c + (src.frame n).px (r - 2) c +
              (src.frame n).px (r + 2) c -
              3 * ((src.frame n).px (r - 1) c + (src.frame n).px (r + 1) c)|)
      then peak else 0 := by
  have hreq : src.request n = src.frame n := by
    rw [Clip.request]
    congr 1
    omega
  have hA : pxAt (src.frame n) ((r : Int) + (-2)) ((c : Int) + 0)
      = (src.frame n).px (r - 2) c := by
    rw [pxAt_of_bounds _ _ _ (by omega) (by omega) (by omega) (by omega)]
    congr 1
    omega
  have hB : pxAt (src.frame n) ((r : Int) + (-1)) ((c : Int) + 0)
      = (src.frame n).px (r - 1) c := by
    rw [pxAt_of_bounds _ _ _ (by omega) (by omega) (by omega) (by omega)]
    congr 1
    omega
  have hC : pxAt (src.frame n) ((r : Int) + 0) ((c : Int) + 0)
      = (src.frame n).px r c := by
    rw [pxAt_of_bounds _ _ _ (by omega) (by omega) (by omega) (by omega)]
    congr 1
  have hD : pxAt (src.frame n) ((r : Int) + 1) ((c : Int) + 0)
      = (src.frame n).px (r + 1) c := by
    rw [pxAt_of_bounds _ _ _ (by omega) (by omega) (by omega) (by omega)]
    congr 1
  have hE : pxAt (src.frame n) ((r : Int) + 2) ((c : Int) + 0)
      = (src.frame n).px (r + 2) c := by
    rw [pxAt_of_bounds _ _ _ (by omega) (by omega) (by omega) (by omega)]
    congr 1
  have hfd : (src.frame n).px r c * 4 + (src.frame n).px (r - 2) c +
        (src.frame n).px (r + 2) c -
        ((src.frame n).px (r - 1) c + (src.frame n).px (r + 1) c) * 3
      = 4 * (src.frame n).px r c + (src.frame n).px (r - 2) c +
        (src.frame n).px (r + 2) c -
        3 * ((src.frame n).px (r - 1) c + (src.frame n).px (r + 1) c) := by
    ring
  simp only [spatialStage, ne_eq, not_true_eq_false, if_false, ite_false,
    exprClip, exprFrame, List.map_cons, List.map_nil, hreq, List.headD,
    List.getD_cons_zero]
  rw [runRPN_m0]
  simp only [Option.getD_some, List.getD_cons_zero, hA, hB, hC, hD, hE]
  rw [hfd, mul_comm (cth : ℚ) 6]

/-- C8.  The metric-0 spatial kernel: for a pixel with all five vertical
neighbours in range (a,b,c0,d,e at row offsets -2,-1,0,+1,+2), the mask is
peak exactly when ((c0-b > cthresh and c0-d > cthresh) or (c0-b < -cthresh
and c0-d < -cthresh)) and |4*c0 + a + e - 3*(b+d)| > 6*cthresh, and 0
otherwise. -/
theorem comb_mask_metric0_kernel (src : Clip MPlane) (cth : Int) (peak : ℚ)
    (n r c : Nat) (hn : n < src.len) (hr2 : 2 ≤ r)
    (hrh : r + 2 < (src.frame n).h) (hcw : c < (src.frame n).w) :
    ((spatialStage src cth peak 0).frame n).px r c =
      if ((((cth : ℚ) < (src.frame n).px r c - (src.frame n).px (r - 1) c ∧
            (cth : ℚ) < (src.frame n).px r c - (src.frame n).px (r + 1) c) ∨
           ((src.frame n).px r c - (src.frame n).px (r - 1) c < -(cth : ℚ) ∧
            (src.frame n).px r c - (src.frame n).px (r + 1) c < -(cth : ℚ))) ∧
          6 * (cth : ℚ) <
            |4 * (src.frame n).px r c + (src.frame n).px (r - 2) c +
              (src.frame n).px (r + 2) c -
              3 * ((src.frame n).px (r - 1) c + (src.frame n).px (r + 1) c)|)
      then peak else 0 :=
  spatialStage0_px src cth peak n r c hn hr2 hrh hcw

/-- A small 5-row comb pattern for the C8 witness: column of pixel values
0, 255, 0, 255, 0. -/
def cxComb : Clip MPlane :=
  ⟨1, fun _ => ⟨5, 1, fun r _ => if r % 2 = 1 then 255 else 0⟩⟩

/-- Witness for comb_mask_metric0_kernel at a concrete instance. -/
theorem comb_mask_metric0_kernel_witness :
    ((spatialStage cxComb 6 255 0).frame 0).px 2 0 =
      if ((((6 : Int) : ℚ) < (cxComb.frame 0).px 2 0 - (cxComb.frame 0).px (2 - 1) 0 ∧
            ((6 : Int) : ℚ) < (cxComb.frame 0).px 2 0 - (cxComb.frame 0).px (2 + 1) 0) ∨
           ((cxComb.frame 0).px 2 0 - (cxComb.frame 0).px (2 - 1) 0 < -((6 : Int) : ℚ) ∧
            (cxComb.frame 0).px 2 0 - (cxComb.frame 0).px (2 + 1) 0 < -((6 : Int) : ℚ))) ∧
          6 * ((6 : Int) : ℚ) <
            |4 * (cxComb.frame 0).px 2 0 + (cxComb.frame 0).px (2 - 2) 0 +
              (cxComb.frame 0).px (2 + 2) 0 -
              3 * ((cxComb.frame 0).px (2 - 1) 0 + (cxComb.frame 0).px (2 + 1) 0)|
      then 255 else 0 :=
  comb_mask_metric0_kernel cxComb 6 255 0 2 0 (by norm_num [cxMask, cxComb])
    (by norm_num) (by norm_num [cxComb]) (by norm_num [cxComb])

lemma runRPN_motion (acc : Nat → Int → Int → ℚ) (mth : Int) (peak : ℚ) :
    runRPN acc (motionToks mth peak) [] (fun _ => 0) =
      some (if (mth : ℚ) < |acc 0 0 0 - acc 1 0 0| then peak else 0) := by
  by_cases h : (mth : ℚ) < |acc 0 0 0 - acc 1 0 0| <;>
    simp [motionToks, runRPN, h]

lemma runRPN_min (acc : Nat → Int → Int → ℚ) :
    runRPN acc minToks [] (fun _ => 0) = some (min (acc 0 0 0) (acc 1 0 0)) := rfl

lemma spatialStage_len (src : Clip MPlane) (cth : Int) (peak : ℚ) (metric : Int) :
    (spatialStage src cth peak metric).len = src.len := by
  simp [spatialStage, exprClip, maxLen]

lemma spatialStage_dims (src : Clip MPlane) (cth : Int) (peak : ℚ) (metric : Int)
    (n : Nat) :
    ((spatialStage src cth peak metric).frame n).h = (src.request n).h ∧
    ((spatialStage src cth peak metric).frame n).w = (src.request n).w := by
  constructor <;> simp [spatialStage, exprClip, exprFrame]

lemma prevSplice_request (src : Clip MPlane) (n : Nat) (hn : n < src.len) :
    (splice (pyFirst src) src).request n = src.frame (n - 1) := by
  rw [Clip.request]
  have hl : (splice (pyFirst src) src).len = src.len + 1 := by
    simp [splice, pyFirst]
    omega
  rw [hl]
  have hm : min n (src.len + 1 - 1) = n := by omega
  rw [hm]
  simp only [splice, pyFirst]
  by_cases h0 : n < min 1 src.len
  · rw [if_pos h0]
    congr 1
    omega
  · rw [if_neg h0]
    congr 1
    omega

lemma motionRaw_len (src : Clip MPlane) (mth : Int) (peak : ℚ) (h : 0 < src.len) :
    (motionRawStage src mth peak).len = src.len + 1 := by
  simp [motionRawStage, exprClip, maxLen, splice, pyFirst]
  omega

lemma motionRaw_dims (src : Clip MPlane) (mth : Int) (peak : ℚ) (n : Nat) :
    ((motionRawStage src mth peak).frame n).h = (src.request n).h ∧
    ((motionRawStage src mth peak).frame n).w = (src.request n).w := by
  constructor <;> simp [motionRawStage, exprClip, exprFrame]

/-- The raw motion mask pixel: peak when the absolute difference between
the current frame and the PREVIOUS frame exceeds mthresh (frame 0 compares
with itself). -/
lemma motionRaw_px (src : Clip MPlane) (mth : Int) (peak : ℚ) (n ρ c : Nat)
    (hn : n < src.len) (hρ : ρ < (src.frame n).h) (hc : c < (src.frame n).w)
    (hh : (src.frame (n - 1)).h = (src.frame n).h)
    (hw : (src.frame (n - 1)).w = (src.frame n).w) :
    ((motionRawStage src mth peak).frame n).px ρ c =
      if (mth : ℚ) < |(src.frame n).px ρ c - (src.frame (n - 1)).px ρ c|
      then peak else 0 := by
  have hreq : src.request n = src.frame n := by
    rw [Clip.request]
    congr 1
    omega
  have hprev := prevSplice_request src n hn
  simp only [motionRawStage, exprClip, exprFrame, List.map_cons, List.map_nil,
    hreq, hprev, List.headD, List.getD_cons_zero]
  rw [runRPN_motion]
  simp only [Option.getD_some, List.getD_cons_zero, List.getD_cons_succ]
  simp only [pxAt_of_bounds (src.frame n) ((ρ : Int) + 0) ((c : Int) + 0)
      (by omega) (by omega) (by omega) (by omega),
    pxAt_of_bounds (src.frame (n - 1)) ((ρ : Int) + 0) ((c : Int) + 0)
      (by omega) (by omega) (by omega) (by omega)]
  norm_num

/-- The vertical dilation of the motion mask: at an interior row, the max
of the pixel and its upper and lower neighbours (fold order of the
coordinates list: centre, top, bottom). -/
lemma motionStage_px (src : Clip MPlane) (mth : Int) (peak : ℚ) (n r c : Nat)
    (hn : n < src.len) (hr1 : 1 ≤ r) (hrh : r + 1 < (src.frame n).h)
    (hc : c < (src.frame n).w) :
    ((motionStage src mth peak).frame n).px r c =
      max (max (((motionRawStage src mth peak).frame n).px r c)
               (((motionRawStage src mth peak).frame n).px (r - 1) c))
          (((motionRawStage src mth peak).frame n).px (r + 1) c) := by
  have hreq : src.request n = src.frame n := by
    rw [Clip.request]
    congr 1
    omega
  have hdh : ((motionRawStage src mth peak).frame n).h = (src.frame n).h := by
    rw [(motionRaw_dims src mth peak n).1, hreq]
  have hdw : ((motionRawStage src mth peak).frame n).w = (src.frame n).w := by
    rw [(motionRaw_dims src mth peak n).2, hreq]
  have h1 : ((r : Int) + -1).toNat = r - 1 := by omega
  have h2 : ((r : Int) + 1).toNat = r + 1 := by omega
  have h3 : ((c : Int)).toNat = c := by omega
  simp only [motionStage, dilate, maxCoordOffsets, List.zip_cons_cons,
    List.zip_nil_right]
  norm_num [List.foldl_cons, List.foldl_nil]
  simp only [pxAt_of_bounds ((motionRawStage src mth peak).frame n)
      ((r : Int) + -1) (c : Int) (by omega) (by omega) (by omega) (by omega),
    pxAt_of_bounds ((motionRawStage src mth peak).frame n)
      ((r : Int) + 1) (c : Int) (by omega) (by omega) (by omega) (by omega),
    h1, h2, h3, sup_eq_max]

/-- Per-pixel form of the comb_mask combination stage (mthresh > 0,
before expansion): the min of the spatial mask and the vertically dilated
previous-frame motion mask. -/
lemma combStage_px (src : Clip MPlane) (cth mth : Int) (peak : ℚ) (metric : Int)
    (n r c : Nat) (hn : n < src.len) (hr1 : 1 ≤ r)
    (hrh : r + 1 < (src.frame n).h) (hcw : c < (src.frame n).w)
    (hh : (src.frame (n - 1)).h = (src.frame n).h)
    (hw : (src.frame (n - 1)).w = (src.frame n).w) :
    ((combStage src cth mth peak metric).frame n).px r c =
      min (((spatialStage src cth peak metric).frame n).px r c)
        (max (max (if (mth : ℚ) < |(src.frame n).px r c - (src.frame (n - 1)).px r c|
                   then peak else 0)
                  (if (mth : ℚ) < |(src.frame n).px (r - 1) c - (src.frame (n - 1)).px (r - 1) c|
                   then peak else 0))
             (if (mth : ℚ) < |(src.frame n).px (r + 1) c - (src.frame (n - 1)).px (r + 1) c|
              then peak else 0)) := by
  have hreq : src.request n = src.frame n := by
    rw [Clip.request]
    congr 1
    omega
  have hsreq : (spatialStage src cth peak metric).request n
      = (spatialStage src cth peak metric).frame n := by
    rw [Clip.request, spatialStage_len]
    congr 1
    omega
  have hmlen : (motionStage src mth peak).len = src.len + 1 := by
    simp [motionStage, dilate, motionRaw_len src mth peak (by omega)]
  have hmreq : (motionStage src mth peak).request n
      = (motionStage src mth peak).frame n := by
    rw [Clip.request, hmlen]
    congr 1
    omega
  have hsd : ((spatialStage src cth peak metric).frame n).h = (src.frame n).h := by
    rw [(spatialStage_dims src cth peak metric n).1, hreq]
  have hsw : ((spatialStage src cth peak metric).frame n).w = (src.frame n).w := by
    rw [(spatialStage_dims src cth peak metric n).2, hreq]
  have hmd : ((motionStage src mth peak).frame n).h = (src.frame n).h := by
    simp only [motionStage, dilate]
    rw [(motionRaw_dims src mth peak n).1, hreq]
  have hmw : ((motionStage src mth peak).frame n).w = (src.frame n).w := by
    simp only [motionStage, dilate]
    rw [(motionRaw_dims src mth peak n).2, hreq]
  have h3 : ((r : Int) + 0).toNat = r := by omega
  have h4 : ((c : Int) + 0).toNat = c := by omega
  simp only [combStage, exprClip, exprFrame, List.map_cons, List.map_nil,
    hsreq, hmreq, List.headD, List.getD_cons_zero]
  rw [runRPN_min]
  simp only [Option.getD_some, List.getD_cons_zero, List.getD_cons_succ,
    pxAt_of_bounds ((spatialStage src cth peak metric).frame n)
      ((r : Int) + 0) ((c : Int) + 0) (by omega) (by omega) (by omega) (by omega),
    pxAt_of_bounds ((motionStage src mth peak).frame n)
      ((r : Int) + 0) ((c : Int) + 0) (by omega) (by omega) (by omega) (by omega),
    h3, h4]
  rw [motionStage_px src mth peak n r c hn hr1 hrh hcw]
  simp only [motionRaw_px src mth peak n r c hn (by omega) hcw hh hw,
    motionRaw_px src mth peak n (r - 1) c hn (by omega) hcw hh hw,
    motionRaw_px src mth peak n (r + 1) c hn (by omega) hcw hh hw]

/-- C7 (amended form).  The comb_mask combination: when mthresh == 0 the
returned mask (expand = false) is the spatial mask alone; when mthresh > 0
the returned mask is the pixelwise min of the spatial mask and the motion
mask, where the motion mask flags |frame - PREVIOUS frame| > mthresh (the
first frame compares with itself) and is dilated vertically by one pixel
before the min. -/
theorem comb_mask_combination (src : Clip MPlane) (peak : ℚ) (cth mth metric : Int)
    (hcth0 : 0 ≤ cth) (hcth1 : cth ≤ (if metric ≠ 0 then 65025 else 255))
    (hmth0 : 0 < mth) (hmth1 : mth ≤ 255)
    (n r c : Nat) (hn : n < src.len) (hr1 : 1 ≤ r)
    (hrh : r + 1 < (src.frame n).h) (hcw : c < (src.frame n).w)
    (hh : (src.frame (n - 1)).h = (src.frame n).h)
    (hw : (src.frame (n - 1)).w = (src.frame n).w) :
    comb_mask src peak cth 0 false metric = .ok (spatialStage src cth peak metric) ∧
    comb_mask src peak cth mth false metric = .ok (combStage src cth mth peak metric) ∧
    ((combStage src cth mth peak metric).frame n).px r c =
      min (((spatialStage src cth peak metric).frame n).px r c)
        (max (max (if (mth : ℚ) < |(src.frame n).px r c - (src.frame (n - 1)).px r c|
                   then peak else 0)
                  (if (mth : ℚ) <
                      |(src.frame n).px (r - 1) c - (src.frame (n - 1)).px (r - 1) c|
                   then peak else 0))
             (if (mth : ℚ) <
                 |(src.frame n).px (r + 1) c - (src.frame (n - 1)).px (r + 1) c|
              then peak else 0)) := by
  refine ⟨?_, ?_, combStage_px src cth mth peak metric n r c hn hr1 hrh hcw hh hw⟩
  · simp only [comb_mask]
    rw [if_neg (by omega), if_neg (by omega)]
    norm_num
  · simp only [comb_mask]
    rw [if_neg (by omega), if_neg (by omega), if_neg (by omega)]
    norm_num

/-- Two-frame clip for the C7 counterexample: frame 0 is a 5-row comb
pattern (0,255,0,255,0), frame 1 is flat 255. -/
def cx7 : Clip MPlane :=
  ⟨2, fun n => ⟨5, 1, fun r _ => if n = 0 then (if r % 2 = 1 then 255 else 0) else 255⟩⟩

/-- Modelled from the claim text of C7 (spec section 4.1), per pixel: the
motion mask flags |frame - NEXT frame| > mthresh, and the returned mask is
the plain min of the spatial mask and this (undilated) motion mask. -/
def comb_mask_specC7_px (src : Clip MPlane) (peak : ℚ) (cth mth metric : Int)
    (n r c : Nat) : ℚ :=
  min (((spatialStage src cth peak metric).frame n).px r c)
    (if (mth : ℚ) < |(src.frame n).px r c - (src.request (n + 1)).px r c|
     then peak else 0)

/-- C7 counterexample: with cthresh 6, mthresh 9, metric 0, at pixel
(row 2, col 0) of frame 0 of cx7, the code returns 0 (the previous-frame
motion mask is empty at frame 0, and min with the spatial flag kills it),
while the claimed next-frame rule returns 255. -/
theorem comb_mask_combination_cx :
    ((combStage cx7 6 9 255 0).frame 0).px 2 0 = 0 ∧
    comb_mask_specC7_px cx7 255 6 9 0 0 2 0 = 255 := by
  have hc := combStage_px cx7 6 9 255 0 0 2 0 (by norm_num [cx7]) (by norm_num)
    (by norm_num [cx7]) (by norm_num [cx7]) (by norm_num [cx7]) (by norm_num [cx7])
  have hs := spatialStage0_px cx7 6 255 0 2 0 (by norm_num [cx7]) (by norm_num)
    (by norm_num [cx7]) (by norm_num [cx7])
  constructor
  · rw [hc, hs]
    norm_num [cx7]
  · rw [comb_mask_specC7_px, hs]
    norm_num [cx7, Clip.request]

/-- Witness for comb_mask_combination at a concrete instance. -/
theorem comb_mask_combination_witness :
    comb_mask cx7 255 6 0 false 0 = .ok (spatialStage cx7 6 255 0) ∧
    comb_mask cx7 255 6 9 false 0 = .ok (combStage cx7 6 9 255 0) ∧
    ((combStage cx7 6 9 255 0).frame 0).px 2 0 =
      min (((spatialStage cx7 6 255 0).frame 0).px 2 0)
        (max (max (if ((9 : Int) : ℚ) < |(cx7.frame 0).px 2 0 - (cx7.frame (0 - 1)).px 2 0|
                   then 255 else 0)
                  (if ((9 : Int) : ℚ) <
                      |(cx7.frame 0).px (2 - 1) 0 - (cx7.frame (0 - 1)).px (2 - 1) 0|
                   then 255 else 0))
             (if ((9 : Int) : ℚ) <
                 |(cx7.frame 0).px (2 + 1) 0 - (cx7.frame (0 - 1)).px (2 + 1) 0|
              then 255 else 0)) :=
  comb_mask_combination cx7 255 6 9 0 (by norm_num) (by norm_num) (by norm_num)
    (by norm_num) 0 2 0 (by norm_num [cx7]) (by norm_num) (by norm_num [cx7])
    (by norm_num [cx7]) (by norm_num [cx7]) (by norm_num [cx7])

/-! ### JIVTC_Deblend (deblend.py lines 110-144)

Frames carry three planes; each plane is modelled as its column of rows
(one sample per row), which is faithful for this pipeline: field
separation and weaving act on rows, the convolutions of vinverse run
vertically (mode v), and every expression is pointwise. -/

/-- A YUV frame: three planes, each a list of rows. -/
structure FrameC5 where
  y : List ℚ
  u : List ℚ
  v : List ℚ
  deriving DecidableEq, Inhabited

/-- Rows 0, 2, 4, ... of a plane. -/
def evenRows : List ℚ → List ℚ
  | [] => []
  | [a] => [a]
  | a :: _ :: t => a :: evenRows t

/-- Rows 1, 3, 5, ... of a plane. -/
def oddRows : List ℚ → List ℚ
  | [] => []
  | [_] => []
  | _ :: b :: t => b :: oddRows t

/-- The top field of a frame (even rows of every plane). -/
def topField (f : FrameC5) : FrameC5 :=
  ⟨evenRows f.y, evenRows f.u, evenRows f.v⟩

/-- The bottom field of a frame (odd rows of every plane). -/
def botField (f : FrameC5) : FrameC5 :=
  ⟨oddRows f.y, oddRows f.u, oddRows f.v⟩

/-- Interleave the rows of two fields, first list on top. -/
def weaveRows : List ℚ → List ℚ → List ℚ
  | [], bs => bs
  | a :: as, bs => a :: weaveRows bs as
termination_by t b => t.length + b.length
decreasing_by simp [List.length_cons]; omega

/-- Weave two fields back into a frame. -/
def weaveF (t b : FrameC5) : FrameC5 :=
  ⟨weaveRows t.y b.y, weaveRows t.u b.u, weaveRows t.v b.v⟩

/-- std.SeparateFields: twice as many frames; with tff the even output
indices carry the top (even-row) fields. -/
def separateFields (src : Clip FrameC5) (tff : Bool) : Clip FrameC5 :=
  ⟨2 * src.len, fun n =>
    let f := src.frame (n / 2)
    if (n % 2 = 0) = tff then topField f else botField f⟩

/-- std.DoubleWeave on a separated-fields clip: frame n weaves fields n
and n+1 (clamped at the end), the even-indexed field on top. -/
def doubleWeave (c : Clip FrameC5) : Clip FrameC5 :=
  ⟨c.len, fun n =>
    if n % 2 = 0 then weaveF (c.frame n) (c.request (n + 1))
    else weaveF (c.request (n + 1)) (c.frame n)⟩

/-- Row access with mirrored edges (std.Convolution boundary handling). -/
def rowAtMirror (p : List ℚ) (r : Int) : ℚ :=
  p.getD (clampIdx p.length
    (if r < 0 then -r
     else if (p.length : Int) ≤ r then 2 * ((p.length : Int) - 1) - r else r)) 0

/-- One output row of a vertical std.Convolution with kernel w
(normalised by the kernel sum, float samples so no rounding). -/
def convRow (w : List ℚ) (p : List ℚ) (r : Nat) : ℚ :=
  ((List.range w.length).foldl
    (fun s i => s + w.getD i 0 * rowAtMirror p ((r : Int) + (i : Int) - (w.length / 2 : Nat)))
    0) / (w.foldl (fun s x => s + x) 0)

/-- Vertical std.Convolution of a plane. -/
def convPlane (w : List ℚ) (p : List ℚ) : List ℚ :=
  (List.range p.length).map (convRow w p)

/-- Vertical std.Convolution of a clip (mode = v). -/
def convolutionV (w : List ℚ) (c : Clip FrameC5) : Clip FrameC5 :=
  ⟨c.len, fun n =>
    ⟨convPlane w (c.frame n).y, convPlane w (c.frame n).u, convPlane w (c.frame n).v⟩⟩

/-- Row access with clamped edges (expression relative access). -/
def rowAtClamp (p : List ℚ) (r : Int) : ℚ :=
  p.getD (clampIdx p.length r) 0

/-- An expression applied to a list of planes, row by row. -/
def exprPlane (toks : List Tok) (ps : List (List ℚ)) : List ℚ :=
  (List.range (ps.headD []).length).map
    (fun r =>
      (runRPN (fun i dx dy => rowAtClamp (ps.getD i []) ((r : Int) + dy))
        toks [] (fun _ => 0)).getD 0)

/-- std.Expr / akarin.Expr over FrameC5 clips, all three planes (the
planes=None call sites). -/
def exprClipF (toks : List Tok) (cs : List (Clip FrameC5)) : Clip FrameC5 :=
  ⟨maxLen cs, fun n =>
    ⟨exprPlane toks (cs.map (fun c => (c.request n).y)),
     exprPlane toks (cs.map (fun c => (c.request n).u)),
     exprPlane toks (cs.map (fun c => (c.request n).v))⟩⟩

/-- deblend.py line 134-135: the deblend kernel over YUV clips. -/
def deblendStreamF (src : Clip FrameC5) : Clip FrameC5 :=
  exprClipF deblendToks [shiftA src, src, shiftBC src, shiftC src]

/-- deblend.py vinverse as called from JIVTC_Deblend (defaults sstr = 2.7,
amnt = 255 so no limiting suffix, scl = 0.25, mode = v, vinverse2 =
False): two cascaded vertical convolutions and the contra-sharpen
expression. -/
def vinverseV (src : Clip FrameC5) : Clip FrameC5 :=
  let blur := convolutionV [50, 99, 50] src
  let blur2 := convolutionV [1, 4, 6, 4, 1] blur
  exprClipF (vinvToks (27 / 10) (1 / 4)) [src, blur, blur2]

/-- std.SetFrameProp(_FieldBased, 0): metadata only, identity on the
modelled plane data. -/
def setFrameProp0 (c : Clip FrameC5) : Clip FrameC5 := c

/-- JIVTC_Deblend: the re-interleaved track
SeparateFields.DoubleWeave.SelectEvery(10, cycle10[pattern]). -/
def jivtcIvtced (src : Clip FrameC5) (p : Nat) (tff : Bool) : Clip FrameC5 :=
  selectEvery (doubleWeave (separateFields src tff)) 10 (cycle10.getD p [])

/-- JIVTC_Deblend: the deblended track, vinverse then
SelectEvery(5, cycle05[pattern]). -/
def jivtcDeblended (src : Clip FrameC5) (p : Nat) : Clip FrameC5 :=
  selectEvery (vinverseV (deblendStreamF src)) 5 (cycle05.getD p [])

/-- std.ShufflePlanes([a, b], [0, 1, 2], YUV): luma from a, chroma from b. -/
def shufflePlanesYUV (a b : Clip FrameC5) : Clip FrameC5 :=
  ⟨max a.len b.len, fun n => ⟨(a.request n).y, (b.request n).u, (b.request n).v⟩⟩

/-- JIVTC_Deblend: the merged stream, Interleave of the two tracks then
SelectEvery(8, cycle08[pattern]). -/
def jivtcMerged (src : Clip FrameC5) (p : Nat) (tff : Bool) : Clip FrameC5 :=
  selectEvery (interleave [jivtcIvtced src p tff, jivtcDeblended src p]) 8
    (cycle08.getD p [])

/-- JIVTC_Deblend after frame-rate validation: with chroma_only the luma
plane comes from the re-interleaved track, chroma from the merged
stream. -/
def jivtcPipeline (src : Clip FrameC5) (p : Nat) (chroma_only tff : Bool) :
    Clip FrameC5 :=
  let ivtced := jivtcIvtced src p tff
  let final := jivtcMerged src p tff
  let final_y := shufflePlanesYUV ivtced final
  setFrameProp0 (if chroma_only then final_y else final)

/-- deblend.py JIVTC_Deblend: eager frame-rate validation, pattern mod 5,
then the pipeline. -/
def JIVTC_Deblend (src : Clip FrameC5) (fps_num fps_den : Nat) (pattern : Int)
    (chroma_only tff : Bool) : Except String (Clip FrameC5) :=
  if fps_num ≠ 30000 ∨ fps_den ≠ 1001 then
    .error "JIVTC_Deblend: This filter can only be used with 60i clips."
  else
    .ok (jivtcPipeline src ((pattern % 5).toNat) chroma_only tff)

lemma convolutionV_len (w : List ℚ) (c : Clip FrameC5) :
    (convolutionV w c).len = c.len := rfl

lemma deblendStreamF_len (src : Clip FrameC5) (h : 0 < src.len) :
    (deblendStreamF src).len = src.len := by
  have h1 : (shiftA src).len = src.len := psrc1_len src h
  have h2 : (shiftBC src).len = src.len := shiftBC_len src h
  have h3 : (shiftC src).len = src.len := shiftC_len src h
  simp [deblendStreamF, exprClipF, maxLen, h1, h2, h3]

lemma vinverseV_len (src : Clip FrameC5) :
    (vinverseV src).len = src.len := by
  simp [vinverseV, exprClipF, maxLen, convolutionV_len]

/-- C5.  Orchestration of JIVTC_Deblend: the pipeline composes the
re-interleaved track (SelectEvery 10 over the separated-and-double-woven
fields) with the deblend-vinverse-decimate5 track, interleaves them
one-for-one and merges with SelectEvery 8; on a 20-frame 60i input with
pattern 0 each track has 16 frames and the output exactly 16 frames, and
with chroma_only the luma plane of every output frame comes from the
re-interleaved track while chroma comes from the merged stream. -/
theorem jivtc_orchestration (src : Clip FrameC5) (tff : Bool)
    (hlen : src.len = 20) :
    JIVTC_Deblend src 30000 1001 0 true tff = .ok (jivtcPipeline src 0 true tff) ∧
    (jivtcIvtced src 0 tff).len = 16 ∧
    (jivtcDeblended src 0).len = 16 ∧
    (jivtcPipeline src 0 true tff).len = 16 ∧
    (∀ n, n < 16 →
      ((jivtcPipeline src 0 true tff).frame n).y = ((jivtcIvtced src 0 tff).frame n).y ∧
      ((jivtcPipeline src 0 true tff).frame n).u = ((jivtcMerged src 0 tff).frame n).u ∧
      ((jivtcPipeline src 0 true tff).frame n).v = ((jivtcMerged src 0 tff).frame n).v) := by
  have h40 : (doubleWeave (separateFields src tff)).len = 40 := by
    simp [doubleWeave, separateFields, hlen]
  have hIv : (jivtcIvtced src 0 tff).len = 16 := by
    simp [jivtcIvtced, selectEvery, h40, cycle10]
  have hDb : (jivtcDeblended src 0).len = 16 := by
    have hv : (vinverseV (deblendStreamF src)).len = 20 := by
      rw [vinverseV_len, deblendStreamF_len src (by omega), hlen]
    simp [jivtcDeblended, selectEvery, hv, cycle05]
  have hMg : (jivtcMerged src 0 tff).len = 16 := by
    have hi : (interleave [jivtcIvtced src 0 tff, jivtcDeblended src 0]).len = 32 := by
      simp [interleave, maxLen, hIv, hDb]
    simp [jivtcMerged, selectEvery, hi, cycle08]
  have hPp : (jivtcPipeline src 0 true tff).len = 16 := by
    simp [jivtcPipeline, setFrameProp0, shufflePlanesYUV, hIv, hMg]
  refine ⟨by norm_num [JIVTC_Deblend], hIv, hDb, hPp, ?_⟩
  intro n hn16
  have hreqI : (jivtcIvtced src 0 tff).request n = (jivtcIvtced src 0 tff).frame n := by
    rw [Clip.request, hIv]
    congr 1
    omega
  have hreqM : (jivtcMerged src 0 tff).request n = (jivtcMerged src 0 tff).frame n := by
    rw [Clip.request, hMg]
    congr 1
    omega
  refine ⟨?_, ?_, ?_⟩ <;>
    simp [jivtcPipeline, setFrameProp0, shufflePlanesYUV, hreqI, hreqM]

/-- The all-zero 20-frame clip of the C5 witness. -/
def czero : Clip FrameC5 :=
  ⟨20, fun _ => ⟨[0, 0], [0, 0], [0, 0]⟩⟩

/-- Witness for jivtc_orchestration at a concrete instance. -/
theorem jivtc_orchestration_witness :
    (jivtcPipeline czero 0 true true).len = 16 :=
  (jivtc_orchestration czero true rfl).2.2.2.1

/-! ### The range reducer _rng (util.py / helper.py), used by find_prop -/

/-- The accumulator loop of _rng: walk the frame list, flushing the
current run buffer whenever the next element is not prev+1 (Python keeps
an explicit flist2/flist3/prev_n triple). -/
def rngLoop : List Int → List (List Int) → List Int → Int → List (List Int) × List Int
  | [], f2, f3, _ => (f2, f3)
  | n :: rest, f2, f3, prev =>
    if prev + 1 ≠ n then
      if f3 ≠ [] then rngLoop rest (f2 ++ [f3]) [n] n
      else rngLoop rest f2 (f3 ++ [n]) n
    else rngLoop rest f2 (f3 ++ [n]) n

/-- Flush the trailing run buffer (the final "if flist3" of _rng). -/
def rngFinish (p : List (List Int) × List Int) : List (List Int) :=
  if p.2 ≠ [] then p.1 ++ [p.2] else p.1

/-- The run decomposition computed by _rng. -/
def runsOf (l : List Int) : List (List Int) :=
  rngFinish (rngLoop l [] [] (-1))

/-- Python list indexing: negative indices count from the end,
out-of-range raises (none). -/
def pyIdx (l : List α) (i : Int) : Option α :=
  if 0 ≤ i then
    (if i < (l.length : Int) then l.get? i.toNat else none)
  else
    (if 0 ≤ i + (l.length : Int) then l.get? (i + (l.length : Int)).toNat else none)

/-- A Python list comprehension of a partial indexing operation: the first
failure aborts. -/
def mapOpt : List α → (α → Option β) → Option (List β)
  | [], _ => some []
  | a :: t, f => (f a).bind fun b => (mapOpt t f).map (fun bs => b :: bs)

/-- Python slice assignment final[s::2] = new, for s = 0 (flag true) or
s = 1 (flag false): the flag marks whether the current position is
replaced. -/
def sliceAssignStep : Bool → List α → List α → List α
  | _, l, [] => l
  | _, [], _ => []
  | true, _ :: t, x :: xs => x :: sliceAssignStep false t xs
  | false, a :: t, xs => a :: sliceAssignStep true t xs

/-- util.py / helper.py _rng: split into runs, keep runs longer than
min_length, take first (i[0]) and second-to-last (i[-2]) of each kept run,
and interleave through final = first+last; final[::2] = first;
final[1::2] = last. -/
def rng (flist1 : List Int) (min_length : Nat) : Option (List Int) :=
  let flist4 := (runsOf flist1).filter (fun i => min_length < i.length)
  (mapOpt flist4 (fun i => pyIdx i 0)).bind fun first_frame =>
  (mapOpt flist4 (fun i => pyIdx i (-2))).map fun last_frame =>
    sliceAssignStep false (sliceAssignStep true (first_frame ++ last_frame) first_frame)
      last_frame

/-- The interleaving start0, end0, start1, end1, ... -/
def interleave2 : List α → List α → List α
  | [], _ => []
  | a :: as, [] => a :: interleave2 as []
  | a :: as, b :: bs => a :: b :: interleave2 as bs

/-- Adjacent runs do not merge: the head of the next run never continues
the last element of the previous one. -/
def Bnd (r s : List Int) : Prop :=
  ∀ x ∈ r.getLast?, ∀ y ∈ s.head?, y ≠ x + 1

/-- Loop invariant of the run splitter: the flushed runs plus the buffer
plus the unprocessed tail always rebuild the input, every emitted run is a
nonempty chain of consecutive integers, and adjacent emitted runs never
merge. -/
lemma rngLoop_spec (rest : List Int) : ∀ (f2 : List (List Int)) (f3 : List Int) (prev : Int),
    (∀ r ∈ f2, r ≠ [] ∧ r.Chain' (fun x y => y = x + 1)) →
    List.Chain' Bnd f2 →
    (f3 = [] → f2 = []) →
    (f3 ≠ [] → f3.Chain' (fun x y => y = x + 1) ∧ f3.getLast? = some prev ∧
      ∀ g ∈ f2.getLast?, Bnd g f3) →
    (rngFinish (rngLoop rest f2 f3 prev)).join = f2.join ++ (f3 ++ rest) ∧
    (∀ r ∈ rngFinish (rngLoop rest f2 f3 prev),
      r ≠ [] ∧ r.Chain' (fun x y => y = x + 1)) ∧
    List.Chain' Bnd (rngFinish (rngLoop rest f2 f3 prev)) := by
  induction rest with
  | nil =>
    intro f2 f3 prev hgood hbnd hemp hf3
    by_cases h3 : f3 = []
    · subst h3
      simp only [rngLoop, rngFinish, ne_eq, not_true_eq_false, if_false, ite_false]
      refine ⟨by simp, hgood, hbnd⟩
    · obtain ⟨hch, hlast, hb⟩ := hf3 h3
      simp only [rngLoop, rngFinish, if_pos h3, ne_eq]
      refine ⟨by simp, ?_, ?_⟩
      · intro r hr
        rcases List.mem_append.1 hr with hr | hr
        · exact hgood r hr
        · rcases List.mem_singleton.1 hr with rfl
          exact ⟨h3, hch⟩
      · rw [List.chain'_append]
        refine ⟨hbnd, List.chain'_singleton f3, ?_⟩
        intro x hx y hy
        simp only [List.head?_cons, Option.mem_def, Option.some.injEq] at hy
        subst hy
        exact hb x hx
  | cons n rest ih =>
    intro f2 f3 prev hgood hbnd hemp hf3
    by_cases hsplit : prev + 1 ≠ n
    · by_cases h3 : f3 = []
      · subst h3
        have hf2 : f2 = [] := hemp rfl
        subst hf2
        simp only [rngLoop, if_pos hsplit, ne_eq, not_true_eq_false, if_false,
          ite_false, List.nil_append]
        have hrec := ih [] [n] n (by simp) (by simp) (by simp)
          (fun _ => ⟨List.chain'_singleton n, rfl, by simp⟩)
        refine ⟨?_, hrec.2.1, hrec.2.2⟩
        rw [hrec.1]
        simp
      · obtain ⟨hch, hlast, hb⟩ := hf3 h3
        simp only [rngLoop, if_pos hsplit, ne_eq]
        rw [if_pos h3]
        have hgood2 : ∀ r ∈ f2 ++ [f3], r ≠ [] ∧ r.Chain' (fun x y => y = x + 1) := by
          intro r hr
          rcases List.mem_append.1 hr with hr | hr
          · exact hgood r hr
          · rcases List.mem_singleton.1 hr with rfl
            exact ⟨h3, hch⟩
        have hbnd2 : List.Chain' Bnd (f2 ++ [f3]) := by
          rw [List.chain'_append]
          refine ⟨hbnd, List.chain'_singleton f3, ?_⟩
          intro x hx y hy
          simp only [List.head?_cons, Option.mem_def, Option.some.injEq] at hy
          subst hy
          exact hb x hx
        have hf3n : ([n] : List Int) ≠ [] → ([n] : List Int).Chain' (fun x y => y = x + 1) ∧
            ([n] : List Int).getLast? = some n ∧
            ∀ g ∈ (f2 ++ [f3]).getLast?, Bnd g [n] := by
          intro _
          refine ⟨List.chain'_singleton n, rfl, ?_⟩
          intro g hg
          rw [List.getLast?_concat] at hg
          simp only [Option.mem_def, Option.some.injEq] at hg
          subst hg
          intro x hx y hy
          rw [hlast] at hx
          simp only [Option.mem_def, Option.some.injEq] at hx
          simp only [List.head?_cons, Option.mem_def, Option.some.injEq] at hy
          omega
        have hrec := ih (f2 ++ [f3]) [n] n hgood2 hbnd2 (by simp) hf3n
        refine ⟨?_, hrec.2.1, hrec.2.2⟩
        rw [hrec.1]
        simp
    · push_neg at hsplit
      simp only [rngLoop, if_neg (not_not_intro hsplit)]
      have hf3n : f3 ++ [n] ≠ [] → (f3 ++ [n]).Chain' (fun x y => y = x + 1) ∧
          (f3 ++ [n]).getLast? = some n ∧ ∀ g ∈ f2.getLast?, Bnd g (f3 ++ [n]) := by
        intro _
        by_cases h3 : f3 = []
        · subst h3
          have hf2 : f2 = [] := hemp rfl
          subst hf2
          exact ⟨List.chain'_singleton n, rfl, by simp⟩
        · obtain ⟨hch, hlast, hb⟩ := hf3 h3
          refine ⟨?_, List.getLast?_concat f3, ?_⟩
          · rw [List.chain'_append]
            refine ⟨hch, List.chain'_singleton n, ?_⟩
            intro x hx y hy
            rw [hlast] at hx
            simp only [Option.mem_def, Option.some.injEq] at hx
            simp only [List.head?_cons, Option.mem_def, Option.some.injEq] at hy
            omega
          · intro g hg
            have hhead : (f3 ++ [n]).head? = f3.head? := by
              cases f3 with
              | nil => exact absurd rfl h3
              | cons c cs => simp
            intro x hx y hy
            rw [hhead] at hy
            exact hb g hg x hx y hy
      have hrec := ih f2 (f3 ++ [n]) n hgood hbnd (by simp) hf3n
      refine ⟨?_, hrec.2.1, hrec.2.2⟩
      rw [hrec.1]
      simp

lemma sAS_length (b : Bool) (l xs : List α) :
    (sliceAssignStep b l xs).length = l.length := by
  induction l generalizing b xs with
  | nil => cases xs <;> cases b <;> rfl
  | cons a t ih =>
    cases xs with
    | nil => cases b <;> rfl
    | cons x xs2 => cases b <;> simp [sliceAssignStep, ih]

lemma sAS_get? (b : Bool) (l xs : List α) (i : Nat)
    (hb : 2 * xs.length ≤ l.length + (if b then 1 else 0)) :
    (sliceAssignStep b l xs).get? i =
      if (i % 2 = if b then 0 else 1) ∧ i / 2 < xs.length then xs.get? (i / 2)
      else l.get? i := by
  induction l generalizing b xs i with
  | nil =>
    cases xs with
    | nil => cases b <;> simp [sliceAssignStep]
    | cons y ys =>
      exfalso
      cases b <;> simp at hb <;> omega
  | cons a t ih =>
    cases xs with
    | nil => simp [sliceAssignStep]
    | cons x xs2 =>
      cases b with
      | true =>
        cases i with
        | zero => simp [sliceAssignStep]
        | succ j =>
          have hstep : sliceAssignStep true (a :: t) (x :: xs2)
              = x :: sliceAssignStep false t xs2 := rfl
          rw [hstep, List.get?_cons_succ,
            ih false xs2 j (by simp at hb ⊢; omega)]
          simp only [List.get?_cons_succ, List.length_cons, if_true, if_false,
            Bool.false_eq_true, ite_true, ite_false]
          split_ifs with h1 h2 h2
          · have hj : (j + 1) / 2 = j / 2 + 1 := by omega
            rw [hj, List.get?_cons_succ]
          · exact absurd ⟨by omega, by omega⟩ h2
          · exact absurd ⟨by omega, by omega⟩ h1
          · rfl
      | false =>
        cases i with
        | zero => simp [sliceAssignStep]
        | succ j =>
          have hstep : sliceAssignStep false (a :: t) (x :: xs2)
              = a :: sliceAssignStep true t (x :: xs2) := rfl
          rw [hstep, List.get?_cons_succ,
            ih true (x :: xs2) j (by simp at hb ⊢; omega)]
          simp only [List.get?_cons_succ, List.length_cons, if_true, if_false,
            Bool.false_eq_true, ite_true, ite_false]
          split_ifs with h1 h2 h2
          · have hj : (j + 1) / 2 = j / 2 := by omega
            rw [hj]
          · exact absurd ⟨by omega, by omega⟩ h2
          · exact absurd ⟨by omega, by omega⟩ h1
          · rfl

lemma interleave2_get? (F : List α) : ∀ (L : List α), F.length = L.length → ∀ i,
    (interleave2 F L).get? i =
      if i % 2 = 0 then F.get? (i / 2) else L.get? (i / 2) := by
  induction F with
  | nil =>
    intro L hL i
    have : L = [] := List.length_eq_zero.1 (by simp at hL; omega)
    subst this
    simp [interleave2]
  | cons a as ih =>
    intro L hL i
    cases L with
    | nil => simp at hL
    | cons b bs =>
      rcases i with _ | _ | j
      · simp [interleave2]
      · simp [interleave2]
      · have hstep : interleave2 (a :: as) (b :: bs) = a :: b :: interleave2 as bs := rfl
        rw [hstep, List.get?_cons_succ, List.get?_cons_succ,
          ih bs (by simp at hL; omega) j]
        have hm : (j + 1 + 1) % 2 = j % 2 := by omega
        have hd : (j + 1 + 1) / 2 = j / 2 + 1 := by omega
        rw [hm, hd]
        split_ifs <;> rw [List.get?_cons_succ]

lemma interleave2_length (F : List α) : ∀ (L : List α), F.length = L.length →
    (interleave2 F L).length = 2 * F.length := by
  induction F with
  | nil =>
    intro L hL
    rfl
  | cons a as ih =>
    intro L hL
    cases L with
    | nil => simp at hL
    | cons b bs =>
      have hstep : interleave2 (a :: as) (b :: bs) = a :: b :: interleave2 as bs := rfl
      rw [hstep]
      simp only [List.length_cons, ih bs (by simp at hL; omega)]
      omega

/-- The composite of the two Python slice assignments over first ++ last
is exactly the interleaving. -/
lemma slice_comp (F L : List α) (h : F.length = L.length) :
    sliceAssignStep false (sliceAssignStep true (F ++ L) F) L = interleave2 F L := by
  apply List.ext
  intro i
  rw [sAS_get? false _ L i
      (by rw [sAS_length]; simp [List.length_append]; omega),
    sAS_get? true _ F i (by simp [List.length_append]; omega),
    interleave2_get? F L h i]
  simp only [if_true, if_false, Bool.false_eq_true, ite_true, ite_false]
  by_cases hpar : i % 2 = 0
  · by_cases hlt : i / 2 < F.length
    · rw [if_neg (by omega), if_pos ⟨hpar, hlt⟩, if_pos hpar]
    · rw [if_neg (by omega), if_neg (by omega), if_pos hpar]
      rw [List.get?_eq_none.2 (by simp [List.length_append]; omega),
        List.get?_eq_none.2 (by omega)]
  · by_cases hlt : i / 2 < L.length
    · rw [if_pos ⟨by omega, hlt⟩, if_neg hpar]
    · rw [if_neg (by omega), if_neg (by omega), if_neg hpar]
      rw [List.get?_eq_none.2 (by simp [List.length_append]; omega),
        List.get?_eq_none.2 (by omega)]

lemma interleave2_maps (ks : List γ) (f g : γ → α) :
    interleave2 (ks.map f) (ks.map g) = (ks.map (fun k => [f k, g k])).join := by
  induction ks with
  | nil => rfl
  | cons k ks ih =>
    simp only [List.map_cons, List.join_cons]
    have hstep : interleave2 (f k :: ks.map f) (g k :: ks.map g)
        = f k :: g k :: interleave2 (ks.map f) (ks.map g) := rfl
    rw [hstep, ih]
    rfl

lemma mapOpt_eq_map (l : List α) (p : α → Option β) (g : α → β)
    (h : ∀ a ∈ l, p a = some (g a)) : mapOpt l p = some (l.map g) := by
  induction l with
  | nil => rfl
  | cons a t ih =>
    simp only [mapOpt, h a (by simp), Option.some_bind,
      ih (fun x hx => h x (by simp [hx])), Option.map_some']
    rfl

lemma get?_eq_some_getD (l : List Int) (k : Nat) (h : k < l.length) :
    l.get? k = some (l.getD k 0) := by
  cases hv : l.get? k with
  | none =>
    rw [List.get?_eq_none] at hv
    omega
  | some v =>
    rw [List.getD_eq_getElem?_getD, ← List.get?_eq_getElem?, hv]
    rfl

lemma pyIdx_zero (l : List Int) (h : 0 < l.length) :
    pyIdx l 0 = some (l.getD 0 0) := by
  rw [pyIdx, if_pos le_rfl, if_pos (by exact_mod_cast h)]
  exact get?_eq_some_getD l 0 h

lemma pyIdx_neg_two (l : List Int) (h : 2 ≤ l.length) :
    pyIdx l (-2) = some (l.getD (l.length - 2) 0) := by
  rw [pyIdx, if_neg (by norm_num), if_pos (by omega)]
  have hidx : ((-2 : Int) + (l.length : Int)).toNat = l.length - 2 := by omega
  rw [hidx]
  exact get?_eq_some_getD l (l.length - 2) (by omega)

/-- C10 (amended form).  _rng splits the input into maximal runs of
consecutive integers (the runs are nonempty +1-chains that concatenate
back to the input, and adjacent runs never continue each other), keeps
runs strictly longer than min_length, and - provided min_length >= 1, so
that every kept run has at least two elements - emits for each kept run
the pair (first element, second-to-last element), interleaved as
start0, end0, start1, end1, ...; with min_length = 0 a kept singleton run
makes the i[-2] lookup fail instead. -/
theorem rng_ranges (l : List Int) (ml : Nat) (hml : 1 ≤ ml) :
    (runsOf l).join = l ∧
    (∀ r ∈ runsOf l, r ≠ [] ∧ r.Chain' (fun x y => y = x + 1)) ∧
    List.Chain' Bnd (runsOf l) ∧
    rng l ml = some ((((runsOf l).filter (fun i => ml < i.length)).map
      (fun r => [r.getD 0 0, r.getD (r.length - 2) 0])).join) := by
  have hmain := rngLoop_spec l [] [] (-1) (by simp) (by simp) (fun _ => rfl)
    (fun h => absurd rfl h)
  have hjoin : (runsOf l).join = l := by
    have h1 := hmain.1
    simpa [runsOf] using h1
  refine ⟨hjoin, hmain.2.1, hmain.2.2, ?_⟩
  have hklen : ∀ r ∈ (runsOf l).filter (fun i => ml < i.length), 2 ≤ r.length := by
    intro r hr
    have hmem := List.of_mem_filter hr
    simp only [decide_eq_true_eq] at hmem
    omega
  have hfirst : mapOpt ((runsOf l).filter (fun i => ml < i.length)) (fun i => pyIdx i 0)
      = some (((runsOf l).filter (fun i => ml < i.length)).map (fun i => i.getD 0 0)) :=
    mapOpt_eq_map _ _ _ (fun a ha => pyIdx_zero a (by have := hklen a ha; omega))
  have hlast : mapOpt ((runsOf l).filter (fun i => ml < i.length)) (fun i => pyIdx i (-2))
      = some (((runsOf l).filter (fun i => ml < i.length)).map
          (fun i => i.getD (i.length - 2) 0)) :=
    mapOpt_eq_map _ _ _ (fun a ha => pyIdx_neg_two a (hklen a ha))
  simp only [rng, hfirst, hlast, Option.some_bind, Option.map_some']
  rw [slice_comp _ _ (by simp), interleave2_maps]

/-- C10 counterexample: with min_length = 0 the singleton run [5] is kept
(its length 1 exceeds 0), but i[-2] on a one-element list raises, so _rng
fails instead of emitting the claimed (first, second-to-last) pair. -/
theorem rng_ranges_cx :
    rng [5] 0 = none ∧ (runsOf [5]).filter (fun i => 0 < i.length) = [[5]] := by
  constructor <;> rfl

/-- Witness for rng_ranges at a concrete instance. -/
theorem rng_ranges_witness :
    rng [3, 4, 5, 9] 1 = some ((((runsOf [3, 4, 5, 9]).filter (fun i => 1 < i.length)).map
      (fun r => [r.getD 0 0, r.getD (r.length - 2) 0])).join) :=
  (rng_ranges [3, 4, 5, 9] 1 le_rfl).2.2.2

end Jvs
